import Mathlib

/-!
# RD2Map: the annotation state engine of `map.js`

A shallow embedding of the module state of `src/map.js` and of the functions that
act on it, followed by theorems about zone drawing, the category registry,
visibility toggling, the list panel and the export / import path.

Modelling conventions.

* The module-level `let` / `const` variables of the script are the fields of `State`;
  a function of the script is a function `State → State` (or `State → Outcome` when an
  exception can escape from it).
* The Leaflet map is an external library.  It is represented by what the script can
  observe of it: the dragging flag, the cursor of its container and the set of
  layers it currently shows (`LMap.layers`, by `_leaflet_id`).  `addLayer` of a layer
  that is already shown and `removeLayer` of one that is not are no-ops, as in Leaflet.
* A text handed to `JSON.parse` is a `Text α`: either the serialisation of a value
  (`Text.json v`, which parses back to `v`) or a text that is not JSON
  (`Text.malformed raw`).  Parsed values are typed by the shape the script reads.
* Coordinates are only copied by the script, never computed with; they are `Int`s here.
* `toast` appends to the log `State.toasts`.
* Strings are sequences of characters.  Where the script counts UTF-16 code units
  (`length`, `substring`) so does the model (`utf16`).  The built-in `toLowerCase` is a
  parameter, a `LowerCasing`, fixed only on strings of ASCII characters.
* The marker panel (its two text fields and the listeners registered on its form and
  buttons) is kept next to the module state in a `Page`.  A listener closed over a
  marker or a zone is identified by the `_leaflet_id` of that layer.
-/

namespace RD2Map

/-! ## Data model -/

abbrev Coord := Int

/-- The `latlng` object carried by a map event. -/
structure LatLng where
  lat : Coord
  lng : Coord
deriving DecidableEq, Repr

/-- A text that may be given to `JSON.parse`. -/
inductive Text (α : Type) where
  | json (v : α)
  | malformed (raw : String)
deriving DecidableEq, Repr

/-- The object `{ name, desc, cat, color }` passed to `startZoneDrawing`. -/
structure ZoneForm where
  name : String
  desc : String
  cat : String
  color : String
deriving DecidableEq, Repr

/-- The object `{ name, desc, cat }` held in `pendingForm`. -/
structure MarkerForm where
  name : String
  desc : String
  cat : String
deriving DecidableEq, Repr

/-- The `data` object of a user marker: `{ name, desc, cat, latlng: [lat, lng] }`. -/
structure MarkerData where
  name : String
  desc : String
  cat : String
  latlng : Coord × Coord
deriving DecidableEq, Repr

/-- The `data` object of a zone: `{ name, desc, cat, type, latlngs }`
(`type` is written by `finishZoneDrawing`; a loaded record may lack it). -/
structure ZoneData where
  name : String
  desc : String
  cat : String
  type : Option String
  latlngs : List (Coord × Coord)
deriving DecidableEq, Repr

/-- One element `{ id, color }` of a serialised category list.  `color` is `none`
when the property is `undefined`, which `JSON.stringify` omits. -/
structure CatEntry where
  id : String
  color : Option String
deriving DecidableEq, Repr

/-- The record stored under `rdr2map_user`; a field is `none` when the key is absent. -/
structure UserRecord where
  markers : Option (List MarkerData)
  areas : Option (List ZoneData)
  categories : Option (List CatEntry)
deriving DecidableEq, Repr

/-- The record stored under `rdr2map_categories`. -/
structure CategoriesRecord where
  categories : Option (List CatEntry)
deriving DecidableEq, Repr

/-- A parsed import payload: with a `user` property (the export format) or without. -/
inductive ImportDoc where
  | withUser (categories : Option (List CatEntry)) (markers : Option (List MarkerData))
      (areas : Option (List ZoneData))
  | bare (r : UserRecord)
deriving DecidableEq, Repr

/-- The document fetched from `default-markers.json`. -/
structure DefaultConfig where
  categories : Option (List CatEntry)
  markers : Option (List MarkerData)
  areas : Option (List ZoneData)
deriving DecidableEq, Repr

/-- A user marker: an `L.marker` with its `data` property. -/
structure Marker where
  _leaflet_id : Nat
  latlng : Coord × Coord
  icon : String
  data : MarkerData
deriving DecidableEq, Repr

/-- A user zone: an `L.polygon` with its `data` property. -/
structure Polygon where
  _leaflet_id : Nat
  latlngs : List (Coord × Coord)
  color : String
  data : ZoneData
deriving DecidableEq, Repr

/-- A shape of the drawing preview. -/
inductive PreviewShape where
  | circleMarker (id : Nat) (pos : LatLng)
  | polyline (id : Nat) (pts : List LatLng) (color : String)
deriving DecidableEq, Repr

def PreviewShape.id : PreviewShape → Nat
  | .circleMarker id _ => id
  | .polyline id _ _ => id

/-- The preview `L.layerGroup()` held in `tempLayer`. -/
structure LayerGroup where
  _leaflet_id : Nat
  layers : List PreviewShape
deriving DecidableEq, Repr

/-- What the script observes of the Leaflet map. -/
structure LMap where
  dragging : Bool
  cursor : String
  layers : List Nat
deriving DecidableEq, Repr

/-- The three records of `localStorage`; `none` is an absent key. -/
structure LocalStorage where
  rdr2map_user : Option (Text UserRecord)
  rdr2map_categories : Option (Text CategoriesRecord)
  rdr2map_visibility : Option (Text (List (String × Bool)))
deriving DecidableEq, Repr

/-- A row of the legend built by `rebuildLegendAndSelect`. -/
structure LegendItem where
  cat : String
  color : String
  checked : Bool
deriving DecidableEq, Repr

/-- A `div.entry` of the list panel: the text of its first `div` and, as UTF-16 code
units, the text of its `entry-sub` (a cut description need not be a well-formed
string), or the `No items yet` entry. -/
inductive ListEntry where
  | item (name : String) (sub : List Nat)
  | noItems
deriving DecidableEq, Repr

/-- The part of the document the script reads and writes. -/
structure Dom where
  newCatName : String
  newCatColor : String
  addCatFormHidden : Bool
  markerPanelHidden : Bool
  zonePanelHidden : Bool
  listPanelHidden : Bool
  zoneName : String
  zoneDesc : String
  zoneCat : String
  bodyPlacing : Bool
  legend : List LegendItem
  catOptions : List String
  mkCat : String
  listTitle : String
  listSearch : String
  listBody : List ListEntry
deriving DecidableEq, Repr

/-- The module state of `map.js`. -/
structure State where
  CATEGORY_LIST : List String
  COLOR_MAP : List (String × Option String)
  CATEGORY_VISIBILITY : List (String × Bool)
  placing : Bool
  pendingForm : Option MarkerForm
  isDrawingZone : Bool
  currentZoneData : Option ZoneForm
  tempPoints : List LatLng
  tempLayer : Option LayerGroup
  map : LMap
  defaultLayer : List Nat
  markerLayer : List Marker
  areaLayer : List Polygon
  localStorage : LocalStorage
  nextId : Nat
  dom : Dom
  toasts : List String
  reloadRequested : Bool
deriving DecidableEq, Repr

/-- The result of running a function from which an exception may escape: the state
at the point where it returned or threw, and the name of the exception if any. -/
structure Outcome where
  state : State
  thrown : Option String
deriving DecidableEq, Repr

/-! ## Objects used as maps -/

/-- Property read `obj[k]` on an object used as a map: `none` is `undefined`.  Own
properties only: the keys are taken to be ordinary names, not `__proto__` or a name
inherited from `Object.prototype`. -/
def getProp {β : Type} (obj : List (String × β)) (k : String) : Option β :=
  match obj with
  | [] => none
  | (k', v) :: rest => if k' = k then some v else getProp rest k

/-- Property write `obj[k] = v`: an existing key keeps its place, a new one goes last.
The keys are taken to be ordinary names: for `__proto__` the script's object ignores
the write, and it lists keys that are array indices before the others. -/
def setProp {β : Type} (obj : List (String × β)) (k : String) (v : β) : List (String × β) :=
  match obj with
  | [] => [(k, v)]
  | (k', v') :: rest => if k' = k then (k, v) :: rest else (k', v') :: setProp rest k v

/-- The function `Object.fromEntries`. -/
def fromEntries {β : Type} (entries : List (String × β)) : List (String × β) :=
  entries.foldl (fun obj kv => setProp obj kv.1 kv.2) []

/-- The expression `COLOR_MAP[cat] || '#94a3b8'`: the fallback is taken when the
property is `undefined` or the empty string. -/
def colorOr (colorMap : List (String × Option String)) (cat : String) : String :=
  match getProp colorMap cat with
  | some (some c) => if c = "" then "#94a3b8" else c
  | _ => "#94a3b8"

/-- The expression `str || dflt` on a string. -/
def strOr (str dflt : String) : String := if str = "" then dflt else str

/-! ## The map surface -/

def LMap.addLayer (m : LMap) (id : Nat) : LMap :=
  if id ∈ m.layers then m else { m with layers := m.layers ++ [id] }

def LMap.removeLayer (m : LMap) (id : Nat) : LMap :=
  { m with layers := m.layers.filter (fun x => x != id) }

def LMap.addLayers (m : LMap) (ids : List Nat) : LMap := ids.foldl LMap.addLayer m

def LMap.removeLayers (m : LMap) (ids : List Nat) : LMap := ids.foldl LMap.removeLayer m

/-- Removing a layer group from the map removes the group and the layers it holds. -/
def LMap.removeGroup (m : LMap) (g : LayerGroup) : LMap :=
  (m.removeLayer g._leaflet_id).removeLayers (g.layers.map PreviewShape.id)

def toast (msg : String) (s : State) : State := { s with toasts := s.toasts ++ [msg] }

/-! ## Strings -/

/-- Lower-casing of the letters `A` to `Z`; every other character is kept. -/
def asciiLowerCase (str : String) : String := String.mk (str.data.map Char.toLower)

/-- The built-in `String.prototype.toLowerCase`.  It is not part of the script and its
Unicode case mapping is not modelled: it is a parameter, any function on strings that
on a string of ASCII characters lower-cases the letters `A` to `Z` and keeps the rest,
as the built-in does. -/
structure LowerCasing where
  toLowerCase : String → String
  ascii : ∀ str : String, (∀ c ∈ str.data, c.toNat < 128) →
    toLowerCase str = asciiLowerCase str

/-- The lower-casing that keeps every character outside ASCII; on strings of ASCII
characters it is the built-in. -/
def asciiLowerCasing : LowerCasing :=
  { toLowerCase := asciiLowerCase, ascii := fun _ _ => rfl }

/-- WhiteSpace and LineTerminator code points, the ones `trim` strips. -/
def isJsWhiteSpace (c : Char) : Bool :=
  let n := c.toNat
  n = 9 || n = 10 || n = 11 || n = 12 || n = 13 || n = 32 || n = 160 || n = 5760 ||
  (8192 ≤ n && n ≤ 8202) || n = 8232 || n = 8233 || n = 8239 || n = 8287 ||
  n = 12288 || n = 65279

/-- The method `String.prototype.trim`. -/
def trim (str : String) : String :=
  String.mk ((((str.data.dropWhile isJsWhiteSpace).reverse).dropWhile isJsWhiteSpace).reverse)

def includesChars : List Char → List Char → Bool
  | [], q => q.isEmpty
  | c :: cs, q => q.isPrefixOf (c :: cs) || includesChars cs q

/-- The method `String.prototype.includes`.  The built-in compares UTF-16 code units;
on well-formed strings that is the comparison of characters made here, a code unit
sequence of whole characters matching only at character boundaries. -/
def includes (str q : String) : Bool := includesChars str.data q.data

/-- The UTF-16 code units of a character: one, or a surrogate pair. -/
def utf16Units (c : Char) : List Nat :=
  if c.toNat < 65536 then [c.toNat]
  else [55296 + (c.toNat - 65536) / 1024, 56320 + (c.toNat - 65536) % 1024]

/-- The UTF-16 code units of a string, which `length` counts and `substring` cuts. -/
def utf16 (str : String) : List Nat := str.data.flatMap utf16Units

def escapeChar (c : Char) : List Char :=
  if c = '&' then "&amp;".data
  else if c = '<' then "&lt;".data
  else if c = '>' then "&gt;".data
  else if c = Char.ofNat 34 then "&quot;".data
  else if c = Char.ofNat 39 then "&#39;".data
  else [c]

def escapeHtml (str : String) : String := String.mk (str.data.flatMap escapeChar)

/-- The replacement made by `escapeHtml`, on one UTF-16 code unit. -/
def escapeUnit (u : Nat) : List Nat :=
  if u = 38 then utf16 "&amp;"
  else if u = 60 then utf16 "&lt;"
  else if u = 62 then utf16 "&gt;"
  else if u = 34 then utf16 "&quot;"
  else if u = 39 then utf16 "&#39;"
  else [u]

/-! ## JSON and localStorage -/

/-- The function `JSON.parse`: a text that is not JSON raises a SyntaxError. -/
def JSON.parse {α : Type} : Text α → Except String α
  | .json v => .ok v
  | .malformed _ => .error "SyntaxError"

/-- The function `JSON.stringify`. -/
def JSON.stringify {α : Type} (v : α) : Text α := .json v

/-- The test `!raw` on the result of `localStorage.getItem`: true for `null` (absent
key) and for the empty string. -/
def falsy {α : Type} : Option (Text α) → Bool
  | none => true
  | some (.malformed raw) => raw = ""
  | some (.json _) => false

/-! ## Zone drawing -/

def resetZoneDrawing (s : State) : State :=
  let map1 := match s.tempLayer with
    | some g => s.map.removeGroup g
    | none => s.map
  { s with
    isDrawingZone := false
    currentZoneData := none
    tempPoints := []
    tempLayer := none
    dom := { s.dom with bodyPlacing := false }
    map := { map1 with dragging := true, cursor := "" } }

def startZoneDrawing (data : ZoneForm) (s : State) : State :=
  let g : LayerGroup := { _leaflet_id := s.nextId, layers := [] }
  toast "Tap/click to add points, double-tap/dblclick to finish"
    { s with
      currentZoneData := some data
      isDrawingZone := true
      tempPoints := []
      tempLayer := some g
      nextId := s.nextId + 1
      dom := { s.dom with bodyPlacing := true }
      map := { (s.map.addLayer g._leaflet_id) with dragging := false, cursor := "crosshair" } }

/-- The circle markers created by `tempPoints.forEach(pt => L.circleMarker(pt, …))`,
stamped from `first` on. -/
def previewCircles (first : Nat) : List LatLng → List PreviewShape
  | [] => []
  | pt :: rest => PreviewShape.circleMarker first pt :: previewCircles (first + 1) rest

def addZonePoint (e : LatLng) (s : State) : Outcome :=
  if !s.isDrawingZone then ⟨s, none⟩
  else
    let pts := s.tempPoints ++ [e]
    let s1 := { s with tempPoints := pts }
    match s.tempLayer with
    | none => ⟨s1, some "TypeError"⟩
    | some g =>
      let c := PreviewShape.circleMarker s.nextId e
      let s2 := { s1 with
        tempLayer := some { g with layers := g.layers ++ [c] }
        map := s.map.addLayer c.id
        nextId := s.nextId + 1 }
      if pts.length > 1 then
        match s.currentZoneData with
        | none => ⟨s2, some "TypeError"⟩
        | some d =>
          let polyline := PreviewShape.polyline s2.nextId pts (strOr d.color "#94a3b8")
          let cleared :=
            (s2.map.addLayer polyline.id).removeLayers
              ((g.layers ++ [c, polyline]).map PreviewShape.id)
          let shown := previewCircles (s2.nextId + 1) pts ++ [polyline]
          ⟨{ s2 with
              tempLayer := some { g with layers := shown }
              map := cleared.addLayers (shown.map PreviewShape.id)
              nextId := s2.nextId + 1 + pts.length }, none⟩
      else ⟨s2, none⟩

def categoryEntries (s : State) : List CatEntry :=
  s.CATEGORY_LIST.map (fun id => { id := id, color := (getProp s.COLOR_MAP id).join })

/-- The object `data` that `saveUserData` serialises. -/
def userDataOf (s : State) : UserRecord :=
  { markers := some (s.markerLayer.map (fun m => m.data))
    areas := some (s.areaLayer.map (fun a => a.data))
    categories := some (categoryEntries s) }

def saveUserData (s : State) : State :=
  { s with localStorage :=
      { s.localStorage with rdr2map_user := some (JSON.stringify (userDataOf s)) } }

def finishZoneDrawing (s : State) : Outcome :=
  if !s.isDrawingZone || s.tempPoints.length < 3 then
    ⟨toast "Need at least 3 points for a zone" s, none⟩
  else
    match s.currentZoneData with
    | none => ⟨s, some "TypeError"⟩
    | some d =>
      let color := strOr d.color "#94a3b8"
      let latlngs := s.tempPoints.map (fun pt => (pt.lat, pt.lng))
      let polygon : Polygon :=
        { _leaflet_id := s.nextId
          latlngs := latlngs
          color := color
          data := { name := d.name, desc := d.desc, cat := d.cat, type := some "polygon",
                    latlngs := latlngs } }
      let s1 := { s with
        areaLayer := s.areaLayer ++ [polygon]
        map := s.map.addLayer polygon._leaflet_id
        nextId := s.nextId + 1 }
      ⟨toast "Zone added" (resetZoneDrawing (saveUserData s1)), none⟩

def closeMarkerPanel (s : State) : State :=
  { s with dom := { s.dom with markerPanelHidden := true } }

def closeZonePanel (s : State) : State :=
  let s1 := { s with dom := { s.dom with zonePanelHidden := true } }
  if s1.isDrawingZone then resetZoneDrawing s1 else s1

/-- The value a `select` takes when `value` is assigned: the option with that value,
or none (the empty string) when no option has it. -/
def selectValue (options : List String) (v : String) : String :=
  if v ∈ options then v else ""

def openZonePanel (s : State) : State :=
  let v := if "Custom" ∈ s.CATEGORY_LIST then "Custom"
    else (s.CATEGORY_LIST.head?).getD "undefined"
  { s with dom := { s.dom with
      zonePanelHidden := false
      zoneName := ""
      zoneDesc := ""
      zoneCat := selectValue s.dom.catOptions v } }

/-- The `submit` listener that `openZonePanel` registers on the zone form. -/
def openZonePanel.onSubmit (s : State) : State :=
  let name := strOr s.dom.zoneName "Unnamed"
  let desc := strOr s.dom.zoneDesc ""
  let cat := s.dom.zoneCat
  let color := colorOr s.COLOR_MAP cat
  closeZonePanel (startZoneDrawing { name := name, desc := desc, cat := cat, color := color } s)

/-- The `keydown` listener of `initMap`, for the key `Escape`. -/
def onEscape (s : State) : State :=
  let s1 := { s with dom := { s.dom with addCatFormHidden := true } }
  let s2 := closeZonePanel (closeMarkerPanel s1)
  let s3 := { s2 with dom := { s2.dom with listPanelHidden := true } }
  resetZoneDrawing s3

/-! ## Categories -/

def rebuildLegendAndSelect (s : State) : State :=
  let legend : List LegendItem :=
    s.CATEGORY_LIST.map (fun id => { cat := id, color := colorOr s.COLOR_MAP id, checked := true })
  let sel := if "Custom" ∈ s.CATEGORY_LIST then "Custom" else (s.CATEGORY_LIST.head?).getD ""
  { s with dom := { s.dom with
      legend := legend
      catOptions := s.CATEGORY_LIST
      mkCat := sel
      zoneCat := sel } }

def saveRuntimeCategories (s : State) : State :=
  let obj : CategoriesRecord := { categories := some (categoryEntries s) }
  { s with localStorage := { s.localStorage with rdr2map_categories := some (JSON.stringify obj) } }

def addCategoryFromForm (s : State) : State :=
  let name := trim s.dom.newCatName
  let color := s.dom.newCatColor
  if name = "" then toast "Name required" s
  else if name ∈ s.CATEGORY_LIST then toast "Category exists" s
  else
    let s1 := { s with
      CATEGORY_LIST := s.CATEGORY_LIST ++ [name]
      COLOR_MAP := setProp s.COLOR_MAP name (some color)
      CATEGORY_VISIBILITY := setProp s.CATEGORY_VISIBILITY name true
      dom := { s.dom with newCatName := "", addCatFormHidden := true } }
    toast "Category added" (saveRuntimeCategories (rebuildLegendAndSelect s1))

/-- Assignment of a parsed category list to `CATEGORY_LIST` and `COLOR_MAP`. -/
def setCategories (cats : List CatEntry) (s : State) : State :=
  { s with
    CATEGORY_LIST := cats.map (fun c => c.id)
    COLOR_MAP := fromEntries (cats.map (fun c => (c.id, c.color))) }

def loadRuntimeCategories (s : State) : State :=
  let raw := s.localStorage.rdr2map_categories
  if falsy raw then s
  else
    match raw with
    | none => s
    | some text =>
      match JSON.parse text with
      | .error _ => s
      | .ok obj =>
        match obj.categories with
        | some cats => setCategories cats s
        | none => s

/-! ## Visibility -/

/-- The closure `toggleLayer` of `toggleCategory`, applied to a layer with the given
`_leaflet_id` and `data.cat`. -/
def toggleLayer (cat : String) (visible : Bool) (m : LMap) (id : Nat) (layerCat : String) : LMap :=
  if layerCat = cat then
    if visible then m.addLayer id else m.removeLayer id
  else m

def toggleCategory (cat : String) (visible : Bool) (s : State) : State :=
  let vis := setProp s.CATEGORY_VISIBILITY cat visible
  let map1 := s.markerLayer.foldl
    (fun m layer => toggleLayer cat visible m layer._leaflet_id layer.data.cat) s.map
  let map2 := s.areaLayer.foldl
    (fun m layer => toggleLayer cat visible m layer._leaflet_id layer.data.cat) map1
  { s with
    CATEGORY_VISIBILITY := vis
    localStorage := { s.localStorage with rdr2map_visibility := some (JSON.stringify vis) }
    map := map2 }

/-! ## Loading -/

/-- The statement `try { CATEGORY_VISIBILITY = JSON.parse(visRaw) } catch {}` of
`loadUserData`.  `CATEGORY_VISIBILITY` is declared with `const`, so the assignment
raises a TypeError after a successful parse; like the SyntaxError of a failed parse
it is swallowed by the empty `catch`. -/
def loadVisibility (s : State) : State :=
  let visRaw := s.localStorage.rdr2map_visibility
  if falsy visRaw then s
  else
    match visRaw with
    | none => s
    | some text =>
      match JSON.parse text with
      | .error _ => s
      | .ok _ => s

/-- One step of `(data.markers || []).forEach(…)` in `loadUserData`. -/
def addLoadedMarker (s : State) (m : MarkerData) : State :=
  let marker : Marker :=
    { _leaflet_id := s.nextId, latlng := m.latlng, icon := colorOr s.COLOR_MAP m.cat, data := m }
  { s with
    markerLayer := s.markerLayer ++ [marker]
    map := s.map.addLayer marker._leaflet_id
    nextId := s.nextId + 1 }

/-- One step of `(data.areas || []).forEach(…)` in `loadUserData`. -/
def addLoadedArea (s : State) (a : ZoneData) : State :=
  let poly : Polygon :=
    { _leaflet_id := s.nextId, latlngs := a.latlngs, color := colorOr s.COLOR_MAP a.cat, data := a }
  { s with
    areaLayer := s.areaLayer ++ [poly]
    map := s.map.addLayer poly._leaflet_id
    nextId := s.nextId + 1 }

def loadUserData (s : State) : Outcome :=
  let s1 := rebuildLegendAndSelect (loadVisibility (loadRuntimeCategories s))
  let saved := s1.localStorage.rdr2map_user
  if falsy saved then ⟨s1, none⟩
  else
    match saved with
    | none => ⟨s1, none⟩
    | some text =>
      match JSON.parse text with
      | .error err => ⟨s1, some err⟩
      | .ok data =>
        let s2 := match data.categories with
          | some cats => rebuildLegendAndSelect (setCategories cats s1)
          | none => s1
        let s3 := (data.markers.getD []).foldl addLoadedMarker s2
        let s4 := (data.areas.getD []).foldl addLoadedArea s3
        let s5 := s4.CATEGORY_VISIBILITY.foldl
          (fun st entry => if !entry.2 then toggleCategory entry.1 false st else st) s4
        ⟨s5, none⟩

/-- The module state when the script has been evaluated and `initMap` has created the
map (dragging enabled), the image overlay and the three layer groups.  The document
is given by the page, which is not part of the script. -/
def initialState (doc : Dom) (storage : LocalStorage) : State :=
  { CATEGORY_LIST := []
    COLOR_MAP := []
    CATEGORY_VISIBILITY := []
    placing := false
    pendingForm := none
    isDrawingZone := false
    currentZoneData := none
    tempPoints := []
    tempLayer := none
    map := { dragging := true, cursor := "", layers := [1, 2, 3, 4] }
    defaultLayer := []
    markerLayer := []
    areaLayer := []
    localStorage := storage
    nextId := 5
    dom := doc
    toasts := []
    reloadRequested := false }

/-- A shape of the default configuration, added to `defaultLayer`. -/
def addDefaultShape (s : State) : State :=
  { s with
    defaultLayer := s.defaultLayer ++ [s.nextId]
    map := s.map.addLayer s.nextId
    nextId := s.nextId + 1 }

def loadConfigAndDefaults (cfg : DefaultConfig) (s : State) : State :=
  let s1 := rebuildLegendAndSelect (setCategories (cfg.categories.getD []) s)
  let s2 := (cfg.markers.getD []).foldl (fun st _ => addDefaultShape st) s1
  (cfg.areas.getD []).foldl (fun st _ => addDefaultShape st) s2

/-- The part of `initMap` that builds the state: `loadConfigAndDefaults` with the
fetched configuration, then `loadUserData`. -/
def initMap (cfg : DefaultConfig) (doc : Dom) (storage : LocalStorage) : Outcome :=
  loadUserData (loadConfigAndDefaults cfg (initialState doc storage))

/-! ## Export and import -/

/-- The record with empty `markers` and `areas` and no `categories`, which `exportData`
parses in place of an absent or empty stored text. -/
def emptyUserText : Text UserRecord :=
  .json { markers := some [], areas := some [], categories := none }

/-- The text that `exportData` offers for download, or the exception it raises. -/
def exportData (s : State) : Except String (Text ImportDoc) :=
  let stored := s.localStorage.rdr2map_user
  let text := if falsy stored then emptyUserText else stored.getD emptyUserText
  match JSON.parse text with
  | .error err => .error err
  | .ok user =>
    let categories := match user.categories with
      | some cats => cats
      | none => categoryEntries s
    .ok (JSON.stringify
      (ImportDoc.withUser (some categories) (some (user.markers.getD []))
        (some (user.areas.getD []))))

def setUserItem (text : Text UserRecord) (s : State) : State :=
  { s with localStorage := { s.localStorage with rdr2map_user := some text } }

/-- The call `location.reload()`. -/
def locationReload (s : State) : State := { s with reloadRequested := true }

/-- The `onload` handler of the `FileReader` in `importData`, given the text read. -/
def importData.onload (result : Text ImportDoc) (s : State) : State :=
  match JSON.parse result with
  | .error _ => toast "Invalid JSON" s
  | .ok (.withUser categories markers areas) =>
    locationReload (setUserItem (JSON.stringify
      { markers := some (markers.getD []), areas := some (areas.getD []),
        categories := some (categories.getD []) }) s)
  | .ok (.bare r) => locationReload (setUserItem (JSON.stringify r) s)

/-- The function `importData`, given the text of the chosen file if there is one. -/
def importData (file : Option (Text ImportDoc)) (s : State) : State :=
  match file with
  | none => s
  | some result => importData.onload result s

/-! ## The list panel -/

/-- An element of `[...markerLayer.getLayers(), ...areaLayer.getLayers()]`. -/
inductive UserLayer where
  | marker (m : Marker)
  | zone (z : Polygon)
deriving DecidableEq, Repr

def UserLayer.name : UserLayer → String
  | .marker m => m.data.name
  | .zone z => z.data.name

def UserLayer.desc : UserLayer → String
  | .marker m => m.data.desc
  | .zone z => z.data.desc

def UserLayer.cat : UserLayer → String
  | .marker m => m.data.cat
  | .zone z => z.data.cat

def allLayers (s : State) : List UserLayer :=
  s.markerLayer.map UserLayer.marker ++ s.areaLayer.map UserLayer.zone

/-- The condition under which `filterList` appends an entry for a layer. -/
def filterList.shows (L : LowerCasing) (cat q : String) (layer : UserLayer) : Bool :=
  layer.cat = cat && (q = "" || includes (L.toLowerCase layer.name) q)

/-- The entry appended for a layer: `escapeHtml(name)`, and `escapeHtml` of
`desc.substring(0, 30)` followed by `...` when `desc.length > 30`, both counted in
UTF-16 code units. -/
def filterList.entry (layer : UserLayer) : ListEntry :=
  .item (escapeHtml layer.name)
    (((utf16 layer.desc).take 30).flatMap escapeUnit ++
      (if (utf16 layer.desc).length > 30 then utf16 "..." else []))

/-- The layers for which `filterList(q)` appends an entry, in order. -/
def filterList.listed (L : LowerCasing) (q : String) (s : State) : List UserLayer :=
  (allLayers s).filter (filterList.shows L s.dom.listTitle q)

def filterList (L : LowerCasing) (q : String) (s : State) : State :=
  let entries := (filterList.listed L q s).map filterList.entry
  { s with dom := { s.dom with
      listBody := if (filterList.listed L q s).isEmpty then [ListEntry.noItems] else entries } }

/-- The `input` listener of the search box (run once the debounce delay has passed). -/
def listSearch.onInput (L : LowerCasing) (s : State) : State :=
  filterList L (trim (L.toLowerCase s.dom.listSearch)) s

def openCategoryList (L : LowerCasing) (id : String) (s : State) : State :=
  filterList L ""
    { s with dom := { s.dom with listTitle := id, listSearch := "", listPanelHidden := false } }

/-! ## Runs of the drawing session -/

/-- The calls that drive the drawing session. -/
inductive DrawAction where
  | startZoneDrawing (data : ZoneForm)
  | addZonePoint (e : LatLng)
  | finishZoneDrawing
  | closeZonePanel
  | escape
deriving DecidableEq, Repr

/-- The state after one call; an exception that escapes from a handler leaves the
state as it was at that point. -/
def DrawAction.apply (s : State) : DrawAction → State
  | .startZoneDrawing data => RD2Map.startZoneDrawing data s
  | .addZonePoint e => (RD2Map.addZonePoint e s).state
  | .finishZoneDrawing => (RD2Map.finishZoneDrawing s).state
  | .closeZonePanel => RD2Map.closeZonePanel s
  | .escape => onEscape s

def runDrawing (s : State) (actions : List DrawAction) : State :=
  actions.foldl DrawAction.apply s

/-- The vertices `p1 … pn` added one after the other by `addZonePoint`. -/
def addZonePoints (s : State) (pts : List LatLng) : State :=
  pts.foldl (fun st e => (addZonePoint e st).state) s

/-- The session reached by `startZoneDrawing(data)` followed by `addZonePoint` for each
of the vertices `pts`, in order. -/
def drawnSession (data : ZoneForm) (s : State) (pts : List LatLng) : State :=
  addZonePoints (startZoneDrawing data s) pts

/-- The invariant of the drawing session: panning is enabled whenever the session is
idle, and an active session has its zone data. -/
def DrawingInv (s : State) : Prop :=
  (s.isDrawingZone = false → s.map.dragging = true) ∧
  (s.isDrawingZone = true → s.currentZoneData.isSome = true)

instance (s : State) : Decidable (DrawingInv s) := by
  unfold DrawingInv; infer_instance

/-! ## Example states -/

/-- A document with every panel hidden and every field empty. -/
def blankDom : Dom :=
  { newCatName := "", newCatColor := "#000000", addCatFormHidden := true
    markerPanelHidden := true, zonePanelHidden := true, listPanelHidden := true
    zoneName := "", zoneDesc := "", zoneCat := "", bodyPlacing := false
    legend := [], catOptions := [], mkCat := "", listTitle := "", listSearch := ""
    listBody := [] }

def emptyStorage : LocalStorage :=
  { rdr2map_user := none, rdr2map_categories := none, rdr2map_visibility := none }

/-- The state of a page opened on empty storage, before any category is loaded. -/
def freshState : State := initialState blankDom emptyStorage

/-- The session after `start`, `addVertex (1, 1)`, `addVertex (2, 5)`. -/
def twoPointSession : State :=
  drawnSession { name := "Ranch", desc := "", cat := "Custom", color := "#ff0000" } freshState
    [{ lat := 1, lng := 1 }, { lat := 2, lng := 5 }]

/-- The session after `start`, two vertices, a `finish` (rejected) and a third vertex. -/
def threePointSession : State :=
  (addZonePoint { lat := 7, lng := 3 } (finishZoneDrawing twoPointSession).state).state

/-- A registry `[Flora, Fauna, Outlaw]` with the form filled in to add `Outlaw` again. -/
def outlawAgain : State :=
  { freshState with
    CATEGORY_LIST := ["Flora", "Fauna", "Outlaw"]
    COLOR_MAP := [("Flora", some "#00ff00"), ("Fauna", some "#0000ff"), ("Outlaw", some "#ff0000")]
    dom := { blankDom with newCatName := "Outlaw", newCatColor := "#000000",
                           addCatFormHidden := false } }

/-- The new-zone form opened on a fresh page with the category `Custom`, and filled in
with the name `Camp`. -/
def zoneFormFilled : State :=
  let s := openZonePanel
    (rebuildLegendAndSelect
      (setCategories [{ id := "Custom", color := some "#ff0000" }] freshState))
  { s with dom := { s.dom with zoneName := "Camp" } }

/-- A run of the drawing session: start, two vertices, a finish that is rejected, a
third vertex, a finish, a second start and Escape. -/
def sampleRun : List DrawAction :=
  [ .startZoneDrawing { name := "Ranch", desc := "", cat := "Custom", color := "#ff0000" },
    .addZonePoint { lat := 1, lng := 1 },
    .addZonePoint { lat := 2, lng := 5 },
    .finishZoneDrawing,
    .addZonePoint { lat := 7, lng := 3 },
    .finishZoneDrawing,
    .startZoneDrawing { name := "Camp", desc := "", cat := "Custom", color := "#ff0000" },
    .escape ]

/-- A marker named `Camp` of category `Custom`. -/
def campMarker : Marker :=
  { _leaflet_id := 5, latlng := (10, 10), icon := "#ff0000"
    data := { name := "Camp", desc := "", cat := "Custom", latlng := (10, 10) } }

/-- The list panel open on the category `Custom`, with the marker `Camp` in the store
and the text ` a` (a space, then `a`) typed in the search box. -/
def campListOpen : State :=
  { freshState with
    CATEGORY_LIST := ["Custom"]
    COLOR_MAP := [("Custom", some "#ff0000")]
    markerLayer := [campMarker]
    map := { dragging := true, cursor := "", layers := [1, 2, 3, 4, 5] }
    nextId := 6
    dom := { blankDom with listTitle := "Custom", listPanelHidden := false, listSearch := " a" } }

/-- A store with the marker `Camp`, one triangular zone and the category `Custom`. -/
def campAndRanch : State :=
  { campListOpen with
    areaLayer :=
      [{ _leaflet_id := 6, latlngs := [(1, 1), (2, 5), (7, 3)], color := "#ff0000"
         data := { name := "Ranch", desc := "", cat := "Custom", type := some "polygon",
                   latlngs := [(1, 1), (2, 5), (7, 3)] } }]
    map := { dragging := true, cursor := "", layers := [1, 2, 3, 4, 5, 6] }
    nextId := 7 }

/-- A default configuration with the categories `Flora` and `Fauna` and no shapes. -/
def sampleConfig : DefaultConfig :=
  { categories := some [{ id := "Flora", color := some "#00ff00" },
                        { id := "Fauna", color := some "#0000ff" }]
    markers := none, areas := none }

/-- A lower-casing that also maps `É` to `é`, as the built-in does. -/
def accentLowerCasing : LowerCasing :=
  { toLowerCase := fun str =>
      String.mk (str.data.map (fun c => if c = 'É' then 'é' else c.toLower))
    ascii := by
      intro str h
      show String.mk _ = String.mk _
      congr 1
      apply List.map_congr_left
      intro c hc
      have hne : c ≠ 'É' := by
        intro hE
        have := h c hc
        rw [hE] at this
        exact absurd this (by decide)
      simp [hne] }

/-- The list panel open on the category `Custom`, with a marker named `École`. -/
def ecoleListOpen : State :=
  { campListOpen with
    markerLayer := [{ campMarker with data := { campMarker.data with name := "École" } }] }

/-- A page whose user-data record is the text `{`, which is not JSON. -/
def corruptUserStorage : LocalStorage :=
  { rdr2map_user := some (Text.malformed "\x7b"), rdr2map_categories := none
    rdr2map_visibility := none }

/-! ## Marker placement, dragging and deletion -/

def resetPlacing (s : State) : State :=
  { s with
    placing := false
    pendingForm := none
    dom := { s.dom with bodyPlacing := false }
    map := { s.map with cursor := "" } }

/-- The `click` listener of the map. -/
def onMapClick (e : LatLng) (s : State) : Outcome :=
  if s.isDrawingZone then addZonePoint e s
  else if s.placing then
    match s.pendingForm with
    | none => ⟨s, none⟩
    | some form =>
      let marker : Marker :=
        { _leaflet_id := s.nextId
          latlng := (e.lat, e.lng)
          icon := colorOr s.COLOR_MAP form.cat
          data := { name := form.name, desc := form.desc, cat := form.cat,
                    latlng := (e.lat, e.lng) } }
      let s1 := { s with
        markerLayer := s.markerLayer ++ [marker]
        map := s.map.addLayer marker._leaflet_id
        nextId := s.nextId + 1 }
      ⟨toast "Marker added" (resetPlacing (saveUserData s1)), none⟩
  else ⟨s, none⟩

/-- The `dblclick` listener of the map. -/
def onMapDblClick (s : State) : Outcome :=
  if s.isDrawingZone then finishZoneDrawing s else ⟨s, none⟩

/-- The `dragend` listener of the marker with the given `_leaflet_id`. -/
def onMarkerDragEnd (id : Nat) (ll : LatLng) (s : State) : State :=
  saveUserData { s with
    markerLayer := s.markerLayer.map (fun m =>
      if m._leaflet_id = id then
        { m with latlng := (ll.lat, ll.lng), data := { m.data with latlng := (ll.lat, ll.lng) } }
      else m) }

/-- The branch `js-del` of the document `click` listener. -/
def onDeleteMarkerClick (id : Nat) (s : State) : State :=
  let found := s.markerLayer.any (fun m => m._leaflet_id = id)
  toast "Marker deleted" (saveUserData { s with
    markerLayer := s.markerLayer.filter (fun m => m._leaflet_id != id)
    map := if found then s.map.removeLayer id else s.map })

/-- The branch `js-zone-del` of the document `click` listener. -/
def onDeleteZoneClick (id : Nat) (s : State) : State :=
  let found := s.areaLayer.any (fun a => a._leaflet_id = id)
  toast "Zone deleted" (saveUserData { s with
    areaLayer := s.areaLayer.filter (fun a => a._leaflet_id != id)
    map := if found then s.map.removeLayer id else s.map })

/-- The function `clearUserData`, given the answer to the `confirm` dialog. -/
def clearUserData (confirmed : Bool) (s : State) : State :=
  if !confirmed then s
  else
    toast "Cleared" { s with
      localStorage := { s.localStorage with rdr2map_user := none, rdr2map_visibility := none }
      markerLayer := []
      areaLayer := []
      map := (s.map.removeLayers (s.markerLayer.map (fun m => m._leaflet_id))).removeLayers
        (s.areaLayer.map (fun a => a._leaflet_id))
      CATEGORY_VISIBILITY := [] }

/-! ## Zone editing -/

/-- The function `editZone`.  The captions of the panel are not part of the model, and
the listeners it registers on the zone form and its buttons are `editZone.onSubmit` and
`editZone.onCancel` below. -/
def editZone (target : Polygon) (s : State) : State :=
  let d := target.data
  let cat := if d.cat = "" then (s.CATEGORY_LIST.head?).getD "undefined" else d.cat
  { s with dom := { s.dom with
      zonePanelHidden := false
      zoneName := strOr d.name ""
      zoneDesc := strOr d.desc ""
      zoneCat := selectValue s.dom.catOptions cat } }

/-- The `target` that the branch `js-zone-edit` leaves after `areaLayer.eachLayer`. -/
def findLast {α : Type} (p : α → Bool) (layers : List α) : Option α :=
  layers.foldl (fun target layer => if p layer then some layer else target) none

/-- The branch `js-zone-edit` of the document `click` listener. -/
def onEditZoneClick (id : Nat) (s : State) : State :=
  match findLast (fun a : Polygon => a._leaflet_id = id) s.areaLayer with
  | none => s
  | some target => editZone target s

/-- The `submit` listener that `editZone` registers, closed over the zone with the
given `_leaflet_id`. -/
def editZone.onSubmit (target : Nat) (s : State) : State :=
  let name := strOr s.dom.zoneName "Unnamed"
  let desc := strOr s.dom.zoneDesc ""
  let cat := s.dom.zoneCat
  let color := colorOr s.COLOR_MAP cat
  let s1 := { s with
    areaLayer := s.areaLayer.map (fun a =>
      if a._leaflet_id = target then
        { a with color := color, data := { a.data with name := name, desc := desc, cat := cat } }
      else a) }
  toast "Zone updated" (closeZonePanel (saveUserData s1))

/-- The `click` listener that `editZone` registers on the two cancel buttons. -/
def editZone.onCancel (s : State) : State := closeZonePanel s

/-! ## The marker panel and its listeners -/

/-- A listener registered on the marker form or on one of its two cancel buttons; each
is one of the closures created by `openMarkerPanel` and `editMarker`. -/
inductive MarkerListener where
  | placeSubmit
  | placeCancel
  | editSubmit (target : Nat)
  | editCancel
deriving DecidableEq, Repr

/-- The marker panel of the document: its captions, the name and description fields,
and the listeners registered with `once: true`, in the order of registration, on the
form (`submit`) and on the buttons `cancelPlace` and `closePanelBtn` (`click`). -/
structure MarkerPanel where
  panelTitle : String
  hint : String
  submitText : String
  mkName : String
  mkDesc : String
  submit : List MarkerListener
  cancelPlace : List MarkerListener
  closePanelBtn : List MarkerListener
deriving DecidableEq, Repr

/-- The module state together with the marker panel. -/
structure Page where
  state : State
  panel : MarkerPanel
deriving DecidableEq, Repr

def openMarkerPanel (p : Page) : Page :=
  let s := p.state
  let v := if "Custom" ∈ s.CATEGORY_LIST then "Custom"
    else (s.CATEGORY_LIST.head?).getD "undefined"
  { state := { s with
      dom := { s.dom with
        markerPanelHidden := false
        bodyPlacing := true
        mkCat := selectValue s.dom.catOptions v }
      map := { s.map with cursor := "crosshair" } }
    panel := { p.panel with
      mkName := ""
      mkDesc := ""
      submit := p.panel.submit ++ [MarkerListener.placeSubmit]
      cancelPlace := p.panel.cancelPlace ++ [MarkerListener.placeCancel]
      closePanelBtn := p.panel.closePanelBtn ++ [MarkerListener.placeCancel] } }

/-- The closure `onSubmit` of `openMarkerPanel`. -/
def openMarkerPanel.onSubmit (p : Page) : Page :=
  let form : MarkerForm :=
    { name := strOr p.panel.mkName "Unnamed", desc := strOr p.panel.mkDesc "",
      cat := p.state.dom.mkCat }
  let s1 := closeMarkerPanel { p.state with pendingForm := some form, placing := true }
  { p with state := toast "Click on the map to place" s1 }

/-- The closure `onCancel` of `openMarkerPanel`. -/
def openMarkerPanel.onCancel (p : Page) : Page :=
  { p with state := resetPlacing (closeMarkerPanel p.state) }

def editMarker (target : Marker) (p : Page) : Page :=
  let s := p.state
  let d := target.data
  let cat := if d.cat = "" then (s.CATEGORY_LIST.head?).getD "undefined" else d.cat
  { state := { s with dom := { s.dom with
      markerPanelHidden := false
      mkCat := selectValue s.dom.catOptions cat } }
    panel := { p.panel with
      panelTitle := "Edit marker"
      hint := ""
      submitText := "Save"
      mkName := strOr d.name ""
      mkDesc := strOr d.desc ""
      submit := p.panel.submit ++ [MarkerListener.editSubmit target._leaflet_id]
      cancelPlace := p.panel.cancelPlace ++ [MarkerListener.editCancel]
      closePanelBtn := p.panel.closePanelBtn ++ [MarkerListener.editCancel] } }

/-- The branch `js-edit` of the document `click` listener. -/
def onEditMarkerClick (id : Nat) (p : Page) : Page :=
  match findLast (fun m : Marker => m._leaflet_id = id) p.state.markerLayer with
  | none => p
  | some target => editMarker target p

/-- The closure `onSubmit` of `editMarker`, closed over the marker with the given
`_leaflet_id`. -/
def editMarker.onSubmit (target : Nat) (p : Page) : Page :=
  let name := strOr p.panel.mkName "Unnamed"
  let desc := strOr p.panel.mkDesc ""
  let cat := p.state.dom.mkCat
  let s1 := { p.state with
    markerLayer := p.state.markerLayer.map (fun m =>
      if m._leaflet_id = target then
        { m with
          icon := colorOr p.state.COLOR_MAP cat
          data := { m.data with name := name, desc := desc, cat := cat } }
      else m) }
  { p with state := toast "Marker updated" (closeMarkerPanel (saveUserData s1)) }

/-- The closure `onCancel` of `editMarker`. -/
def editMarker.onCancel (p : Page) : Page :=
  { state := closeMarkerPanel p.state
    panel := { p.panel with
      panelTitle := "New marker"
      hint := "Click on the map to place the marker"
      submitText := "Ready to place" } }

def runMarkerListener (p : Page) : MarkerListener → Page
  | .placeSubmit => openMarkerPanel.onSubmit p
  | .placeCancel => openMarkerPanel.onCancel p
  | .editSubmit target => editMarker.onSubmit target p
  | .editCancel => editMarker.onCancel p

/-- A `submit` event on the marker form: every registered listener runs, in the order
of registration, and being registered with `once: true` is removed. -/
def dispatchMarkerSubmit (p : Page) : Page :=
  p.panel.submit.foldl runMarkerListener { p with panel := { p.panel with submit := [] } }

/-- A `click` event on the button `cancelPlace`. -/
def dispatchCancelPlace (p : Page) : Page :=
  p.panel.cancelPlace.foldl runMarkerListener
    { p with panel := { p.panel with cancelPlace := [] } }

/-- A `click` event on the button `closePanelBtn`. -/
def dispatchClosePanelBtn (p : Page) : Page :=
  p.panel.closePanelBtn.foldl runMarkerListener
    { p with panel := { p.panel with closePanelBtn := [] } }

/-- The user fills in the fields of the marker form. -/
def typeMarkerForm (name desc cat : String) (p : Page) : Page :=
  { state := { p.state with dom := { p.state.dom with mkCat := cat } }
    panel := { p.panel with mkName := name, mkDesc := desc } }

/-- Every marker and zone is on the map. -/
def AllShown (s : State) : Prop :=
  (∀ m ∈ s.markerLayer, m._leaflet_id ∈ s.map.layers) ∧
  (∀ a ∈ s.areaLayer, a._leaflet_id ∈ s.map.layers)

instance (s : State) : Decidable (AllShown s) := by
  unfold AllShown; infer_instance

/-! ## User actions on a page -/

/-- Every zone of the area collection has at least 3 vertices, as drawn and as data. -/
def ZonesOk (s : State) : Prop :=
  ∀ z ∈ s.areaLayer, 3 ≤ z.latlngs.length ∧ 3 ≤ z.data.latlngs.length

/-- Every area of a serialised list has at least 3 vertices. -/
def AreasOk (areas : List ZoneData) : Prop := ∀ a ∈ areas, 3 ≤ a.latlngs.length

/-- The user-data record, when there is one that parses, has no area with fewer than 3
vertices. -/
def StoredOk (storage : LocalStorage) : Prop :=
  match storage.rdr2map_user with
  | some (Text.json r) => AreasOk (r.areas.getD [])
  | _ => True

/-- The import file, when there is one that parses, has no area with fewer than 3
vertices. -/
def ImportOk : Option (Text ImportDoc) → Prop
  | some (Text.json (ImportDoc.withUser _ _ areas)) => AreasOk (areas.getD [])
  | some (Text.json (ImportDoc.bare r)) => AreasOk (r.areas.getD [])
  | _ => True

instance (s : State) : Decidable (ZonesOk s) := by
  unfold ZonesOk; infer_instance

instance (areas : List ZoneData) : Decidable (AreasOk areas) := by
  unfold AreasOk; infer_instance

instance (storage : LocalStorage) : Decidable (StoredOk storage) := by
  unfold StoredOk; split <;> infer_instance

instance (file : Option (Text ImportDoc)) : Decidable (ImportOk file) := by
  unfold ImportOk; split <;> infer_instance

/-- The invariant of the area collection: the zones shown and the zones stored all have
at least 3 vertices. -/
def ZoneInv (s : State) : Prop := ZonesOk s ∧ StoredOk s.localStorage

instance (s : State) : Decidable (ZoneInv s) := by
  unfold ZoneInv; infer_instance

/-- The user fills in the fields of the zone form. -/
def typeZoneForm (name desc cat : String) (s : State) : State :=
  { s with dom := { s.dom with zoneName := name, zoneDesc := desc, zoneCat := cat } }

/-- The user fills in the add-category form. -/
def typeCategoryForm (name color : String) (s : State) : State :=
  { s with dom := { s.dom with newCatName := name, newCatColor := color } }

/-- The page after a load of the document: the script runs again on the storage left
by the previous page, and no listener of the marker panel is registered yet. -/
def reloadPage (cfg : DefaultConfig) (doc : Dom) (panel : MarkerPanel) (p : Page) : Page :=
  { state := (initMap cfg doc p.state.localStorage).state
    panel := { panel with submit := [], cancelPlace := [], closePanelBtn := [] } }

/-- What the user can do on a page.  A listener of the zone form is an action of its
own (`zoneFormSubmit`, `editZoneSubmit`, `editZoneCancel`): a `submit` or `click` event
on the zone panel runs some of them one after the other. -/
inductive PageAction where
  | draw (a : DrawAction)
  | mapClick (e : LatLng)
  | mapDblClick
  | openZonePanel
  | typeZoneForm (name desc cat : String)
  | zoneFormSubmit
  | editZoneClick (id : Nat)
  | editZoneSubmit (id : Nat)
  | editZoneCancel
  | deleteZoneClick (id : Nat)
  | deleteMarkerClick (id : Nat)
  | markerDragEnd (id : Nat) (ll : LatLng)
  | openMarkerPanel
  | editMarkerClick (id : Nat)
  | typeMarkerForm (name desc cat : String)
  | markerFormSubmit
  | cancelPlaceClick
  | closePanelBtnClick
  | typeCategoryForm (name color : String)
  | saveCategoryClick
  | toggleCategory (cat : String) (visible : Bool)
  | clearUserData (confirmed : Bool)
  | importFile (file : Option (Text ImportDoc))
  | reload (cfg : DefaultConfig) (doc : Dom) (panel : MarkerPanel)
deriving DecidableEq, Repr

/-- The action is not the import of a file with an area of fewer than 3 vertices. -/
def PageAction.wellFormed : PageAction → Prop
  | .importFile file => ImportOk file
  | _ => True

instance (a : PageAction) : Decidable a.wellFormed := by
  unfold PageAction.wellFormed; split <;> infer_instance

/-- The page after one action; an exception that escapes from a listener leaves the
state as it was at that point. -/
def applyPageAction (p : Page) : PageAction → Page
  | .draw a => { p with state := a.apply p.state }
  | .mapClick e => { p with state := (onMapClick e p.state).state }
  | .mapDblClick => { p with state := (onMapDblClick p.state).state }
  | .openZonePanel => { p with state := RD2Map.openZonePanel p.state }
  | .typeZoneForm name desc cat => { p with state := RD2Map.typeZoneForm name desc cat p.state }
  | .zoneFormSubmit => { p with state := openZonePanel.onSubmit p.state }
  | .editZoneClick id => { p with state := onEditZoneClick id p.state }
  | .editZoneSubmit id => { p with state := editZone.onSubmit id p.state }
  | .editZoneCancel => { p with state := editZone.onCancel p.state }
  | .deleteZoneClick id => { p with state := onDeleteZoneClick id p.state }
  | .deleteMarkerClick id => { p with state := onDeleteMarkerClick id p.state }
  | .markerDragEnd id ll => { p with state := onMarkerDragEnd id ll p.state }
  | .openMarkerPanel => RD2Map.openMarkerPanel p
  | .editMarkerClick id => onEditMarkerClick id p
  | .typeMarkerForm name desc cat => RD2Map.typeMarkerForm name desc cat p
  | .markerFormSubmit => dispatchMarkerSubmit p
  | .cancelPlaceClick => dispatchCancelPlace p
  | .closePanelBtnClick => dispatchClosePanelBtn p
  | .typeCategoryForm name color =>
    { p with state := RD2Map.typeCategoryForm name color p.state }
  | .saveCategoryClick => { p with state := addCategoryFromForm p.state }
  | .toggleCategory cat visible => { p with state := RD2Map.toggleCategory cat visible p.state }
  | .clearUserData confirmed => { p with state := RD2Map.clearUserData confirmed p.state }
  | .importFile file => { p with state := importData file p.state }
  | .reload cfg doc panel => reloadPage cfg doc panel p

def runPage (p : Page) (actions : List PageAction) : Page :=
  actions.foldl applyPageAction p

/-! ## Example pages -/

/-- A default configuration with the single category `Custom`. -/
def customConfig : DefaultConfig :=
  { categories := some [{ id := "Custom", color := some "#ff0000" }]
    markers := none, areas := none }

/-- A marker panel with no listener registered. -/
def blankPanel : MarkerPanel :=
  { panelTitle := "New marker", hint := "Click on the map to place the marker"
    submitText := "Ready to place", mkName := "", mkDesc := ""
    submit := [], cancelPlace := [], closePanelBtn := [] }

/-- A page opened on empty storage with the default category `Custom`. -/
def customPage : Page :=
  { state := (initMap customConfig blankDom emptyStorage).state, panel := blankPanel }

/-- The marker panel is opened, the name is typed, the form is submitted and the map
is clicked at the given point. -/
def placeMarker (name : String) (e : LatLng) (p : Page) : Page :=
  let p1 := dispatchMarkerSubmit (typeMarkerForm name "" "Custom" (openMarkerPanel p))
  { p1 with state := (onMapClick e p1.state).state }

/-- The page after the marker `Camp` has been placed. -/
def campPlaced : Page := placeMarker "Camp" { lat := 10, lng := 10 } customPage

/-- The page after the markers `Camp` and `Saloon` have been placed. -/
def twoMarkers : Page := placeMarker "Saloon" { lat := 20, lng := 20 } campPlaced

/-- On the page with the marker `Camp`, the category `Outlaw` with the colour `#000000`
is typed into the add-category form. -/
def outlawTyped : State :=
  { campPlaced.state with
    dom := { campPlaced.state.dom with newCatName := "Outlaw", newCatColor := "#000000" } }

/-- On the page with the marker `Camp`, the category `Custom` is switched off. -/
def customHidden : State := toggleCategory "Custom" false campPlaced.state

/-- On the page with the two markers: the edit form of `Camp` is opened and cancelled
with the button `cancelPlace`; then the edit form of `Saloon` is opened and the name
`Hideout` is typed. -/
def saloonEditOpen : Page :=
  typeMarkerForm "Hideout" "" "Custom"
    (onEditMarkerClick 6 (dispatchCancelPlace (onEditMarkerClick 5 twoMarkers)))

/-- On the page with the two markers: the new-marker panel is opened and cancelled with
the button `cancelPlace`; then the edit form of `Saloon` is opened and the name
`Hideout` is typed. -/
def saloonEditAfterCancelledPlace : Page :=
  typeMarkerForm "Hideout" "" "Custom"
    (onEditMarkerClick 6 (dispatchCancelPlace (openMarkerPanel twoMarkers)))

/-- An import file in the export format whose only zone has two vertices. -/
def twoVertexImport : Text ImportDoc :=
  Text.json (ImportDoc.withUser (some [{ id := "Custom", color := some "#ff0000" }]) (some [])
    (some [{ name := "Line", desc := "", cat := "Custom", type := some "polygon",
             latlngs := [(1, 1), (2, 5)] }]))

/-- An import file in the export format with one triangular zone. -/
def triangleImport : Text ImportDoc :=
  Text.json (ImportDoc.withUser (some [{ id := "Custom", color := some "#ff0000" }]) (some [])
    (some [{ name := "Ranch", desc := "", cat := "Custom", type := some "polygon",
             latlngs := [(1, 1), (2, 5), (7, 3)] }]))

/-- A session on a page: a zone is drawn and renamed, a file with a triangular zone is
imported and the page reloads, the loaded zone is edited, a second zone is drawn with
too few vertices and abandoned, and the first loaded zone is deleted. -/
def sampleSession : List PageAction :=
  [ .draw (.startZoneDrawing { name := "Ranch", desc := "", cat := "Custom", color := "#ff0000" }),
    .mapClick { lat := 1, lng := 1 },
    .mapClick { lat := 2, lng := 5 },
    .mapClick { lat := 7, lng := 3 },
    .mapDblClick,
    .editZoneClick 16,
    .typeZoneForm "Big ranch" "" "Custom",
    .editZoneSubmit 16,
    .importFile (some triangleImport),
    .reload customConfig blankDom blankPanel,
    .editZoneClick 5,
    .typeZoneForm "Valley" "" "Custom",
    .editZoneSubmit 5,
    .draw (.startZoneDrawing { name := "Camp", desc := "", cat := "Custom", color := "#ff0000" }),
    .mapClick { lat := 3, lng := 3 },
    .mapDblClick,
    .draw .escape,
    .deleteZoneClick 5 ]

/-- The import of the file with a two-vertex zone, followed by the reload it asks for. -/
def twoVertexSession : List PageAction :=
  [ .importFile (some twoVertexImport), .reload customConfig blankDom blankPanel ]

/-! ## Theorems -/

/-! ### Zone drawing: a finish with too few vertices -/

/-- C1: when the vertex buffer holds fewer than 3 vertices, `finishZoneDrawing` raises
no exception, adds no zone, writes nothing to `localStorage`, leaves `tempPoints`,
`isDrawingZone` and the map (so the panning flag) as they were, and its only effect
is the notification `Need at least 3 points for a zone`. -/
theorem finishZoneDrawing_fewer_than_three (s : State) (h : s.tempPoints.length < 3) :
    (finishZoneDrawing s).thrown = none ∧
    (finishZoneDrawing s).state.areaLayer = s.areaLayer ∧
    (finishZoneDrawing s).state.markerLayer = s.markerLayer ∧
    (finishZoneDrawing s).state.localStorage = s.localStorage ∧
    (finishZoneDrawing s).state.tempPoints = s.tempPoints ∧
    (finishZoneDrawing s).state.isDrawingZone = s.isDrawingZone ∧
    (finishZoneDrawing s).state.currentZoneData = s.currentZoneData ∧
    (finishZoneDrawing s).state.tempLayer = s.tempLayer ∧
    (finishZoneDrawing s).state.map = s.map ∧
    (finishZoneDrawing s).state.toasts = s.toasts ++ ["Need at least 3 points for a zone"] ∧
    (finishZoneDrawing s).state = toast "Need at least 3 points for a zone" s := by
  have hcond : (!s.isDrawingZone || decide (s.tempPoints.length < 3)) = true := by
    simp [h]
  simp [finishZoneDrawing, hcond, toast]

/-- The scenario of C1: after `start`, two vertices and `finish`, the buffer is still
the two vertices, the session is still active and panning is still disabled. -/
theorem finishZoneDrawing_fewer_than_three_witness :
    twoPointSession.tempPoints.length < 3 ∧
    (finishZoneDrawing twoPointSession).state.tempPoints
      = [{ lat := 1, lng := 1 }, { lat := 2, lng := 5 }] ∧
    (finishZoneDrawing twoPointSession).state.isDrawingZone = true ∧
    (finishZoneDrawing twoPointSession).state.map.dragging = false ∧
    (finishZoneDrawing twoPointSession).state.areaLayer = [] ∧
    (finishZoneDrawing twoPointSession).state.localStorage = emptyStorage ∧
    (finishZoneDrawing twoPointSession).state.toasts
      = twoPointSession.toasts ++ ["Need at least 3 points for a zone"] := by
  have h := finishZoneDrawing_fewer_than_three twoPointSession (by decide)
  refine ⟨by decide, ?_, ?_, ?_, ?_, ?_, h.2.2.2.2.2.2.2.2.2.1⟩
  · rw [h.2.2.2.2.1]; rfl
  · rw [h.2.2.2.2.2.1]; rfl
  · rw [h.2.2.2.2.2.2.2.2.1]; rfl
  · rw [h.2.1]; rfl
  · rw [h.2.2.2.1]; rfl

/-! ### The map surface -/

theorem LMap.addLayer_dragging (m : LMap) (id : Nat) : (m.addLayer id).dragging = m.dragging := by
  unfold LMap.addLayer; split <;> rfl

theorem LMap.removeLayer_dragging (m : LMap) (id : Nat) :
    (m.removeLayer id).dragging = m.dragging := rfl

theorem LMap.addLayers_dragging (m : LMap) (ids : List Nat) :
    (m.addLayers ids).dragging = m.dragging := by
  induction ids generalizing m with
  | nil => rfl
  | cons x xs ih =>
    show (LMap.addLayers (m.addLayer x) xs).dragging = m.dragging
    rw [ih, LMap.addLayer_dragging]

theorem LMap.removeLayers_dragging (m : LMap) (ids : List Nat) :
    (m.removeLayers ids).dragging = m.dragging := by
  induction ids generalizing m with
  | nil => rfl
  | cons x xs ih =>
    show (LMap.removeLayers (m.removeLayer x) xs).dragging = m.dragging
    rw [ih, LMap.removeLayer_dragging]

theorem LMap.removeLayers_layers (m : LMap) (ids : List Nat) :
    (m.removeLayers ids).layers = m.layers.filter (fun x => decide (x ∉ ids)) := by
  induction ids generalizing m with
  | nil => simp [LMap.removeLayers]
  | cons y ys ih =>
    show (LMap.removeLayers (m.removeLayer y) ys).layers = _
    rw [ih]
    simp only [LMap.removeLayer, List.filter_filter]
    congr 1
    funext x
    by_cases hx : x = y <;> simp [hx]

/-- What one `addZonePoint` does to an active session that has its preview layer. -/
theorem addZonePoint_active (e : LatLng) (s : State) (d : ZoneForm) (g : LayerGroup)
    (hA : s.isDrawingZone = true) (hD : s.currentZoneData = some d) (hL : s.tempLayer = some g) :
    (addZonePoint e s).thrown = none ∧
    (addZonePoint e s).state.isDrawingZone = true ∧
    (addZonePoint e s).state.currentZoneData = some d ∧
    (∃ g', (addZonePoint e s).state.tempLayer = some g') ∧
    (addZonePoint e s).state.tempPoints = s.tempPoints ++ [e] ∧
    (addZonePoint e s).state.map.dragging = s.map.dragging ∧
    (addZonePoint e s).state.markerLayer = s.markerLayer ∧
    (addZonePoint e s).state.areaLayer = s.areaLayer ∧
    (addZonePoint e s).state.localStorage = s.localStorage ∧
    (addZonePoint e s).state.CATEGORY_LIST = s.CATEGORY_LIST ∧
    (addZonePoint e s).state.COLOR_MAP = s.COLOR_MAP := by
  unfold addZonePoint
  simp only [hA, hD, hL, Bool.not_true, Bool.false_eq_true, if_false]
  split <;>
    simp [LMap.addLayers_dragging, LMap.removeLayers_dragging, LMap.addLayer_dragging]

/-- A run of `addZonePoint` calls on an active session appends the vertices in order
and touches neither the session flags nor the stores. -/
theorem addZonePoints_active (pts : List LatLng) (s : State) (d : ZoneForm) (g : LayerGroup)
    (hA : s.isDrawingZone = true) (hD : s.currentZoneData = some d) (hL : s.tempLayer = some g) :
    (addZonePoints s pts).isDrawingZone = true ∧
    (addZonePoints s pts).currentZoneData = some d ∧
    (∃ g', (addZonePoints s pts).tempLayer = some g') ∧
    (addZonePoints s pts).tempPoints = s.tempPoints ++ pts ∧
    (addZonePoints s pts).map.dragging = s.map.dragging ∧
    (addZonePoints s pts).markerLayer = s.markerLayer ∧
    (addZonePoints s pts).areaLayer = s.areaLayer ∧
    (addZonePoints s pts).localStorage = s.localStorage ∧
    (addZonePoints s pts).CATEGORY_LIST = s.CATEGORY_LIST ∧
    (addZonePoints s pts).COLOR_MAP = s.COLOR_MAP := by
  induction pts generalizing s g with
  | nil => simp [addZonePoints, hA, hD, hL]
  | cons e rest ih =>
    obtain ⟨_, h1, h2, ⟨g', h3⟩, h4, h5, h6, h7, h8, h9, h10⟩ := addZonePoint_active e s d g hA hD hL
    obtain ⟨k1, k2, k3, k4, k5, k6, k7, k8, k9, k10⟩ := ih (addZonePoint e s).state g' h1 h2 h3
    have hstep : addZonePoints s (e :: rest) = addZonePoints (addZonePoint e s).state rest := rfl
    rw [hstep]
    refine ⟨k1, k2, k3, ?_, ?_, ?_, ?_, ?_, ?_, ?_⟩
    · rw [k4, h4]; simp
    · rw [k5, h5]
    · rw [k6, h6]
    · rw [k7, h7]
    · rw [k8, h8]
    · rw [k9, h9]
    · rw [k10, h10]

theorem resetZoneDrawing_preview_removed (s : State) (g : LayerGroup) (hL : s.tempLayer = some g) :
    g._leaflet_id ∉ (resetZoneDrawing s).map.layers ∧
    ∀ sh ∈ g.layers, sh.id ∉ (resetZoneDrawing s).map.layers := by
  have hl : (resetZoneDrawing s).map.layers
      = (s.map.layers.filter (fun x => x != g._leaflet_id)).filter
          (fun x => decide (x ∉ g.layers.map PreviewShape.id)) := by
    simp only [resetZoneDrawing, hL, LMap.removeGroup]
    rw [LMap.removeLayers_layers]
    rfl
  rw [hl]
  constructor
  · simp [List.mem_filter]
  · intro sh hsh
    simp only [List.mem_filter, not_and]
    intro _ hcontra
    have : sh.id ∈ g.layers.map PreviewShape.id := List.mem_map_of_mem _ hsh
    simp [this] at hcontra

theorem drawnSession_spec (data : ZoneForm) (s : State) (pts : List LatLng) :
    (drawnSession data s pts).isDrawingZone = true ∧
    (drawnSession data s pts).currentZoneData = some data ∧
    (∃ g, (drawnSession data s pts).tempLayer = some g) ∧
    (drawnSession data s pts).tempPoints = pts ∧
    (drawnSession data s pts).map.dragging = false ∧
    (drawnSession data s pts).markerLayer = s.markerLayer ∧
    (drawnSession data s pts).areaLayer = s.areaLayer ∧
    (drawnSession data s pts).localStorage = s.localStorage ∧
    (drawnSession data s pts).CATEGORY_LIST = s.CATEGORY_LIST ∧
    (drawnSession data s pts).COLOR_MAP = s.COLOR_MAP := by
  obtain ⟨k1, k2, k3, k4, k5, k6, k7, k8, k9, k10⟩ :=
    addZonePoints_active pts (startZoneDrawing data s) data
      { _leaflet_id := s.nextId, layers := [] } rfl rfl rfl
  exact ⟨k1, k2, k3, by rw [drawnSession, k4]; rfl, by rw [drawnSession, k5]; rfl, k6, k7, k8, k9, k10⟩

/-- C2: for every active session that holds the zone data `data` given to
`startZoneDrawing` and whose buffer holds `n ≥ 3` vertices (each `addZonePoint`
appends its vertex at the end, see `addZonePoint_active`), `finishZoneDrawing` raises
no exception, appends exactly one polygon to `areaLayer` whose data has the name, desc
and cat of `data` and the buffered vertices in order, leaves the earlier zones and the
markers as they were, writes a user-data record that contains the new zone, removes
the preview layer from the map, and ends idle (flag false, buffer empty,
`currentZoneData` and `tempLayer` null) with panning enabled. -/
theorem finishZoneDrawing_commits (t : State) (data : ZoneForm)
    (hA : t.isDrawingZone = true) (hD : t.currentZoneData = some data)
    (h : 3 ≤ t.tempPoints.length) :
    (finishZoneDrawing t).thrown = none ∧
    (∃ id : Nat, (finishZoneDrawing t).state.areaLayer
        = t.areaLayer ++
          [{ _leaflet_id := id
             latlngs := t.tempPoints.map (fun pt => (pt.lat, pt.lng))
             color := strOr data.color "#94a3b8"
             data := { name := data.name, desc := data.desc, cat := data.cat,
                       type := some "polygon",
                       latlngs := t.tempPoints.map (fun pt => (pt.lat, pt.lng)) } }]) ∧
    (finishZoneDrawing t).state.markerLayer = t.markerLayer ∧
    (finishZoneDrawing t).state.localStorage.rdr2map_user
      = some (Text.json
          { markers := some (t.markerLayer.map (fun m => m.data))
            areas := some (t.areaLayer.map (fun a => a.data) ++
              [{ name := data.name, desc := data.desc, cat := data.cat, type := some "polygon",
                 latlngs := t.tempPoints.map (fun pt => (pt.lat, pt.lng)) }])
            categories := some (categoryEntries t) }) ∧
    (finishZoneDrawing t).state.isDrawingZone = false ∧
    (finishZoneDrawing t).state.tempPoints = [] ∧
    (finishZoneDrawing t).state.currentZoneData = none ∧
    (finishZoneDrawing t).state.tempLayer = none ∧
    (∀ g, t.tempLayer = some g →
      g._leaflet_id ∉ (finishZoneDrawing t).state.map.layers ∧
      ∀ sh ∈ g.layers, sh.id ∉ (finishZoneDrawing t).state.map.layers) ∧
    (finishZoneDrawing t).state.map.dragging = true ∧
    (finishZoneDrawing t).state.toasts = t.toasts ++ ["Zone added"] := by
  have hcond : (!t.isDrawingZone || decide (t.tempPoints.length < 3)) = false := by
    simp [hA]; omega
  have hfin : finishZoneDrawing t
      = ⟨toast "Zone added" (resetZoneDrawing (saveUserData
          { t with
            areaLayer := t.areaLayer ++
              [{ _leaflet_id := t.nextId
                 latlngs := t.tempPoints.map (fun pt => (pt.lat, pt.lng))
                 color := strOr data.color "#94a3b8"
                 data := { name := data.name, desc := data.desc, cat := data.cat,
                           type := some "polygon",
                           latlngs := t.tempPoints.map (fun pt => (pt.lat, pt.lng)) } }]
            map := t.map.addLayer t.nextId
            nextId := t.nextId + 1 })), none⟩ := by
    unfold finishZoneDrawing
    simp only [hcond, hD]
    rfl
  rw [hfin]
  refine ⟨rfl, ⟨t.nextId, ?_⟩, ?_, ?_, rfl, rfl, rfl, rfl, ?_, rfl, rfl⟩
  · simp [toast, resetZoneDrawing, saveUserData]
  · simp [toast, resetZoneDrawing, saveUserData]
  · simp [toast, resetZoneDrawing, saveUserData, JSON.stringify, userDataOf, categoryEntries]
  · intro g' hg'
    exact resetZoneDrawing_preview_removed _ g' hg'

/-- The scenario of C2: `start`, two vertices, a `finish` that is rejected, a third
vertex and `finish`: the zone with the three vertices is stored, the session is idle
and panning is enabled. -/
theorem finishZoneDrawing_commits_witness :
    threePointSession.isDrawingZone = true ∧
    threePointSession.currentZoneData
      = some { name := "Ranch", desc := "", cat := "Custom", color := "#ff0000" } ∧
    3 ≤ threePointSession.tempPoints.length ∧
    (finishZoneDrawing threePointSession).state.areaLayer.map (fun a => a.data)
      = [{ name := "Ranch", desc := "", cat := "Custom", type := some "polygon",
           latlngs := [(1, 1), (2, 5), (7, 3)] }] ∧
    (finishZoneDrawing threePointSession).state.isDrawingZone = false ∧
    (finishZoneDrawing threePointSession).state.map.dragging = true := by
  have h := finishZoneDrawing_commits threePointSession
    { name := "Ranch", desc := "", cat := "Custom", color := "#ff0000" } rfl rfl (by decide)
  exact ⟨rfl, rfl, by decide, by rfl, h.2.2.2.2.1, h.2.2.2.2.2.2.2.2.2.1⟩

/-- The same for the session reached by `startZoneDrawing(data)` and one `addZonePoint`
per vertex of `pts`: the stored zone has the vertices `pts` in order and the stores of
the state the drawing started from are otherwise kept. -/
theorem finishZoneDrawing_commits_drawn (data : ZoneForm) (s : State) (pts : List LatLng)
    (h : 3 ≤ pts.length) :
    (finishZoneDrawing (drawnSession data s pts)).thrown = none ∧
    (∃ id : Nat, (finishZoneDrawing (drawnSession data s pts)).state.areaLayer
        = s.areaLayer ++
          [{ _leaflet_id := id
             latlngs := pts.map (fun pt => (pt.lat, pt.lng))
             color := strOr data.color "#94a3b8"
             data := { name := data.name, desc := data.desc, cat := data.cat,
                       type := some "polygon",
                       latlngs := pts.map (fun pt => (pt.lat, pt.lng)) } }]) ∧
    (finishZoneDrawing (drawnSession data s pts)).state.markerLayer = s.markerLayer ∧
    (finishZoneDrawing (drawnSession data s pts)).state.isDrawingZone = false ∧
    (finishZoneDrawing (drawnSession data s pts)).state.map.dragging = true := by
  obtain ⟨k1, k2, _, k4, _, k6, k7, _, _, _⟩ := drawnSession_spec data s pts
  obtain ⟨f1, ⟨id, f2⟩, f3, _, f5, _, _, _, _, f10, _⟩ :=
    finishZoneDrawing_commits (drawnSession data s pts) data k1 k2 (by rw [k4]; exact h)
  refine ⟨f1, ⟨id, ?_⟩, ?_, f5, f10⟩
  · rw [f2, k7, k4]
  · rw [f3, k6]

/-! ### Zone drawing: starting from the form -/

theorem resetZoneDrawing_idle (s : State) :
    (resetZoneDrawing s).isDrawingZone = false ∧
    (resetZoneDrawing s).currentZoneData = none ∧
    (resetZoneDrawing s).tempPoints = [] ∧
    (resetZoneDrawing s).tempLayer = none ∧
    (resetZoneDrawing s).map.dragging = true :=
  ⟨rfl, rfl, rfl, rfl, rfl⟩

/-- The submit listener registered by `openZonePanel` calls `startZoneDrawing` and
then `closeZonePanel`, which finds `isDrawingZone` true and calls `resetZoneDrawing`.
In every state, when the listener returns the session is therefore idle:
`isDrawingZone` is false, `currentZoneData` and `tempLayer` are null, the buffer is
empty, panning is enabled, and a following `addZonePoint` does nothing. -/
theorem openZonePanel_onSubmit_ends_idle (s : State) :
    (openZonePanel.onSubmit s).isDrawingZone = false ∧
    (openZonePanel.onSubmit s).currentZoneData = none ∧
    (openZonePanel.onSubmit s).tempLayer = none ∧
    (openZonePanel.onSubmit s).tempPoints = [] ∧
    (openZonePanel.onSubmit s).map.dragging = true ∧
    (openZonePanel.onSubmit s).toasts
      = s.toasts ++ ["Tap/click to add points, double-tap/dblclick to finish"] ∧
    ∀ e, addZonePoint e (openZonePanel.onSubmit s) = ⟨openZonePanel.onSubmit s, none⟩ := by
  have h : (openZonePanel.onSubmit s).isDrawingZone = false := by
    simp [openZonePanel.onSubmit, closeZonePanel, startZoneDrawing, toast, resetZoneDrawing]
  refine ⟨h, ?_, ?_, ?_, ?_, ?_, ?_⟩
  · simp [openZonePanel.onSubmit, closeZonePanel, startZoneDrawing, toast, resetZoneDrawing]
  · simp [openZonePanel.onSubmit, closeZonePanel, startZoneDrawing, toast, resetZoneDrawing]
  · simp [openZonePanel.onSubmit, closeZonePanel, startZoneDrawing, toast, resetZoneDrawing]
  · simp [openZonePanel.onSubmit, closeZonePanel, startZoneDrawing, toast, resetZoneDrawing]
  · simp [openZonePanel.onSubmit, closeZonePanel, startZoneDrawing, toast, resetZoneDrawing]
  · intro e
    simp [addZonePoint, h]

/-- C3 (as the code behaves): the new-zone form opened by `openZonePanel` in the idle
state and submitted with the name `Camp` and the category `Custom`.  The submit
listener calls `startZoneDrawing` and then `closeZonePanel`, which resets the session
it finds active: when the listener returns `isDrawingZone` is false, `currentZoneData`
and `tempLayer` are null, panning is enabled, and a following map click adds no
vertex. -/
theorem openZonePanel_onSubmit_example :
    zoneFormFilled.isDrawingZone = false ∧ zoneFormFilled.map.dragging = true ∧
    (openZonePanel.onSubmit zoneFormFilled).isDrawingZone = false ∧
    (openZonePanel.onSubmit zoneFormFilled).currentZoneData = none ∧
    (openZonePanel.onSubmit zoneFormFilled).tempLayer = none ∧
    (openZonePanel.onSubmit zoneFormFilled).map.dragging = true ∧
    (addZonePoint { lat := 1, lng := 1 } (openZonePanel.onSubmit zoneFormFilled)).state.tempPoints
      = [] := by
  refine ⟨?_, ?_, ?_, ?_, ?_, ?_, ?_⟩ <;> rfl

/-! ### Zone drawing: panning -/

theorem addZonePoint_flags (e : LatLng) (s : State) :
    (addZonePoint e s).state.isDrawingZone = s.isDrawingZone ∧
    (addZonePoint e s).state.map.dragging = s.map.dragging ∧
    (addZonePoint e s).state.currentZoneData = s.currentZoneData := by
  cases hA : s.isDrawingZone
  · simp [addZonePoint, hA]
  · cases hL : s.tempLayer with
    | none => simp [addZonePoint, hA, hL]
    | some g =>
      cases hD : s.currentZoneData with
      | none =>
        by_cases hlen : 0 < s.tempPoints.length <;>
          simp [addZonePoint, hA, hL, hD, hlen, LMap.addLayer_dragging]
      | some d =>
        by_cases hlen : 0 < s.tempPoints.length <;>
          simp [addZonePoint, hA, hL, hD, hlen, LMap.addLayers_dragging,
            LMap.removeLayers_dragging, LMap.addLayer_dragging]

theorem finishZoneDrawing_flags (s : State) :
    ((finishZoneDrawing s).state.isDrawingZone = false ∧
      (finishZoneDrawing s).state.map.dragging = true) ∨
    ((finishZoneDrawing s).state.isDrawingZone = s.isDrawingZone ∧
      (finishZoneDrawing s).state.map.dragging = s.map.dragging ∧
      (finishZoneDrawing s).state.currentZoneData = s.currentZoneData) := by
  unfold finishZoneDrawing
  split
  · right; simp [toast]
  · split
    · right; simp
    · left; simp [toast, resetZoneDrawing]

theorem closeZonePanel_flags (s : State) :
    (closeZonePanel s).isDrawingZone = false ∧
    (s.isDrawingZone = true → (closeZonePanel s).map.dragging = true) ∧
    (s.isDrawingZone = false → (closeZonePanel s).map.dragging = s.map.dragging) := by
  unfold closeZonePanel
  cases h : s.isDrawingZone <;> simp [h, resetZoneDrawing]

theorem drawAction_apply_inv (s : State) (a : DrawAction) (h : DrawingInv s) :
    DrawingInv (a.apply s) := by
  obtain ⟨h1, h2⟩ := h
  cases a with
  | startZoneDrawing data =>
    exact ⟨fun hc => by
        have hc' : (RD2Map.startZoneDrawing data s).isDrawingZone = false := hc
        simp [RD2Map.startZoneDrawing, toast] at hc',
      fun _ => rfl⟩
  | addZonePoint e =>
    obtain ⟨k1, k2, k3⟩ := addZonePoint_flags e s
    exact ⟨fun hc => by
        show (RD2Map.addZonePoint e s).state.map.dragging = true
        rw [k2]; exact h1 (k1 ▸ hc),
      fun hc => by
        show (RD2Map.addZonePoint e s).state.currentZoneData.isSome = true
        rw [k3]; exact h2 (k1 ▸ hc)⟩
  | finishZoneDrawing =>
    rcases finishZoneDrawing_flags s with ⟨k1, k2⟩ | ⟨k1, k2, k3⟩
    · exact ⟨fun _ => k2, fun hc => by
        have : (RD2Map.finishZoneDrawing s).state.isDrawingZone = true := hc
        rw [k1] at this; cases this⟩
    · exact ⟨fun hc => by
        show (RD2Map.finishZoneDrawing s).state.map.dragging = true
        rw [k2]; exact h1 (k1 ▸ hc),
      fun hc => by
        show (RD2Map.finishZoneDrawing s).state.currentZoneData.isSome = true
        rw [k3]; exact h2 (k1 ▸ hc)⟩
  | closeZonePanel =>
    obtain ⟨k1, k2, k3⟩ := closeZonePanel_flags s
    refine ⟨fun _ => ?_, fun hc => ?_⟩
    · show (RD2Map.closeZonePanel s).map.dragging = true
      cases hs : s.isDrawingZone
      · rw [k3 hs]; exact h1 hs
      · exact k2 hs
    · have : (RD2Map.closeZonePanel s).isDrawingZone = true := hc
      rw [k1] at this; cases this
  | escape =>
    exact ⟨fun _ => rfl, fun hc => by
      have : (onEscape s).isDrawingZone = true := hc
      simp [onEscape, resetZoneDrawing] at this⟩

theorem runDrawing_inv (actions : List DrawAction) (s : State) (h : DrawingInv s) :
    DrawingInv (runDrawing s actions) := by
  induction actions generalizing s with
  | nil => exact h
  | cons a rest ih => exact ih (a.apply s) (drawAction_apply_inv s a h)

/-- C4: in every state reached from an idle state with panning enabled by any sequence
of `startZoneDrawing`, `addZonePoint`, `finishZoneDrawing`, `closeZonePanel` and the
Escape handler, panning is enabled whenever `isDrawingZone` is false; and from every
such state that is active, each exit (`closeZonePanel`, Escape, `finishZoneDrawing`
with at least 3 vertices) ends idle with panning enabled. -/
theorem panning_disabled_only_while_drawing (s0 : State) (actions : List DrawAction)
    (hIdle : s0.isDrawingZone = false) (hPan : s0.map.dragging = true) :
    ((runDrawing s0 actions).isDrawingZone = false →
      (runDrawing s0 actions).map.dragging = true) ∧
    ((runDrawing s0 actions).isDrawingZone = true →
      ((closeZonePanel (runDrawing s0 actions)).isDrawingZone = false ∧
        (closeZonePanel (runDrawing s0 actions)).map.dragging = true) ∧
      ((onEscape (runDrawing s0 actions)).isDrawingZone = false ∧
        (onEscape (runDrawing s0 actions)).map.dragging = true) ∧
      (3 ≤ (runDrawing s0 actions).tempPoints.length →
        (finishZoneDrawing (runDrawing s0 actions)).thrown = none ∧
        (finishZoneDrawing (runDrawing s0 actions)).state.isDrawingZone = false ∧
        (finishZoneDrawing (runDrawing s0 actions)).state.map.dragging = true)) := by
  have hinv : DrawingInv (runDrawing s0 actions) :=
    runDrawing_inv actions s0 ⟨fun _ => hPan, fun hc => by rw [hIdle] at hc; cases hc⟩
  refine ⟨hinv.1, fun hA => ⟨?_, ⟨rfl, rfl⟩, fun hlen => ?_⟩⟩
  · obtain ⟨k1, k2, _⟩ := closeZonePanel_flags (runDrawing s0 actions)
    exact ⟨k1, k2 hA⟩
  · obtain ⟨d, hd⟩ := Option.isSome_iff_exists.mp (hinv.2 hA)
    have hcond : (!(runDrawing s0 actions).isDrawingZone
        || decide ((runDrawing s0 actions).tempPoints.length < 3)) = false := by
      simp [hA]; omega
    unfold finishZoneDrawing
    simp only [hcond, hd]
    exact ⟨rfl, rfl, rfl⟩

/-- A run that starts a zone, adds two vertices, fails to finish, adds a third,
finishes, starts again and presses Escape. -/
theorem panning_disabled_only_while_drawing_witness :
    freshState.isDrawingZone = false ∧ freshState.map.dragging = true ∧
    ((runDrawing freshState sampleRun).isDrawingZone = false →
      (runDrawing freshState sampleRun).map.dragging = true) ∧
    (runDrawing freshState sampleRun).isDrawingZone = false ∧
    (runDrawing freshState (sampleRun.take 3)).map.dragging = false :=
  ⟨rfl, rfl, (panning_disabled_only_while_drawing freshState sampleRun rfl rfl).1, rfl, rfl⟩

/-! ### The category registry -/

/-- C5: when the trimmed name of the add-category form is empty or already in
`CATEGORY_LIST`, `addCategoryFromForm` leaves `CATEGORY_LIST`, `COLOR_MAP` and
`CATEGORY_VISIBILITY` unchanged whatever the colour, writes nothing to
`localStorage`, and its only effect is the notification `Name required` (empty name)
or `Category exists` (duplicate). -/
theorem addCategoryFromForm_rejects (s : State)
    (h : trim s.dom.newCatName = "" ∨ trim s.dom.newCatName ∈ s.CATEGORY_LIST) :
    (addCategoryFromForm s).CATEGORY_LIST = s.CATEGORY_LIST ∧
    (addCategoryFromForm s).COLOR_MAP = s.COLOR_MAP ∧
    (addCategoryFromForm s).CATEGORY_VISIBILITY = s.CATEGORY_VISIBILITY ∧
    (addCategoryFromForm s).localStorage = s.localStorage ∧
    (addCategoryFromForm s).toasts
      = s.toasts ++ [if trim s.dom.newCatName = "" then "Name required" else "Category exists"] ∧
    addCategoryFromForm s
      = toast (if trim s.dom.newCatName = "" then "Name required" else "Category exists") s := by
  by_cases h0 : trim s.dom.newCatName = ""
  · simp [addCategoryFromForm, h0, toast]
  · have h1 : trim s.dom.newCatName ∈ s.CATEGORY_LIST := h.resolve_left h0
    simp [addCategoryFromForm, h0, h1, toast]

/-- The scenario of C5: with the registry `[Flora, Fauna, Outlaw]`, adding `Outlaw`
with the colour `#000000` is rejected and `Outlaw` keeps its colour. -/
theorem addCategoryFromForm_rejects_witness :
    (trim outlawAgain.dom.newCatName = "" ∨
      trim outlawAgain.dom.newCatName ∈ outlawAgain.CATEGORY_LIST) ∧
    (addCategoryFromForm outlawAgain).CATEGORY_LIST = ["Flora", "Fauna", "Outlaw"] ∧
    getProp (addCategoryFromForm outlawAgain).COLOR_MAP "Outlaw" = some (some "#ff0000") ∧
    (addCategoryFromForm outlawAgain).localStorage = emptyStorage ∧
    (addCategoryFromForm outlawAgain).toasts = ["Category exists"] := by
  have hpre : trim outlawAgain.dom.newCatName = "" ∨
      trim outlawAgain.dom.newCatName ∈ outlawAgain.CATEGORY_LIST := Or.inr (by decide)
  have h := addCategoryFromForm_rejects outlawAgain hpre
  refine ⟨hpre, ?_, ?_, ?_, ?_⟩
  · rw [h.1]; rfl
  · rw [h.2.1]; rfl
  · rw [h.2.2.2.1]; rfl
  · rw [h.2.2.2.2.1]; rfl

/-! ### Import of a text that is not JSON -/

/-- C7: when the text read from the import file is not JSON, the load handler of
`importData` changes none of the three `localStorage` records, nor the category list,
the colour map, the visibility map, the marker and zone collections, requests no
reload, and its only effect is the notification `Invalid JSON`. -/
theorem importData_onload_invalid_json (raw : String) (s : State) :
    (importData.onload (Text.malformed raw) s).localStorage = s.localStorage ∧
    (importData.onload (Text.malformed raw) s).CATEGORY_LIST = s.CATEGORY_LIST ∧
    (importData.onload (Text.malformed raw) s).COLOR_MAP = s.COLOR_MAP ∧
    (importData.onload (Text.malformed raw) s).CATEGORY_VISIBILITY = s.CATEGORY_VISIBILITY ∧
    (importData.onload (Text.malformed raw) s).markerLayer = s.markerLayer ∧
    (importData.onload (Text.malformed raw) s).areaLayer = s.areaLayer ∧
    (importData.onload (Text.malformed raw) s).reloadRequested = s.reloadRequested ∧
    (importData.onload (Text.malformed raw) s).toasts = s.toasts ++ ["Invalid JSON"] ∧
    importData.onload (Text.malformed raw) s = toast "Invalid JSON" s ∧
    importData (some (Text.malformed raw)) s = toast "Invalid JSON" s :=
  ⟨rfl, rfl, rfl, rfl, rfl, rfl, rfl, rfl, rfl, rfl⟩

/-! ### Loading a user-data record that is not JSON -/

/-- The assignment to the `const` binding never takes effect. -/
theorem loadVisibility_eq (s : State) : loadVisibility s = s := by
  unfold loadVisibility
  cases h : s.localStorage.rdr2map_visibility with
  | none => simp [falsy]
  | some text =>
    cases text with
    | json v => simp [falsy, JSON.parse]
    | malformed raw => simp [falsy, JSON.parse]

theorem loadRuntimeCategories_cases (s : State) :
    loadRuntimeCategories s = s ∨ ∃ cats, loadRuntimeCategories s = setCategories cats s := by
  unfold loadRuntimeCategories
  cases h : s.localStorage.rdr2map_categories with
  | none => simp [falsy]
  | some text =>
    cases text with
    | malformed raw => simp [falsy, JSON.parse]
    | json v =>
      cases hc : v.categories with
      | none => simp [falsy, JSON.parse, hc]
      | some cats => right; exact ⟨cats, by simp [falsy, JSON.parse, hc]⟩

/-- What `loadUserData` does before it reads the user-data record leaves the stores
and the map as they were. -/
theorem loadUserData_prelude_frame (s : State) :
    (rebuildLegendAndSelect (loadVisibility (loadRuntimeCategories s))).localStorage
      = s.localStorage ∧
    (rebuildLegendAndSelect (loadVisibility (loadRuntimeCategories s))).markerLayer
      = s.markerLayer ∧
    (rebuildLegendAndSelect (loadVisibility (loadRuntimeCategories s))).areaLayer
      = s.areaLayer ∧
    (rebuildLegendAndSelect (loadVisibility (loadRuntimeCategories s))).CATEGORY_VISIBILITY
      = s.CATEGORY_VISIBILITY ∧
    (rebuildLegendAndSelect (loadVisibility (loadRuntimeCategories s))).map = s.map := by
  rw [loadVisibility_eq]
  rcases loadRuntimeCategories_cases s with h | ⟨cats, h⟩ <;> rw [h] <;>
    exact ⟨rfl, rfl, rfl, rfl, rfl⟩

/-- A non-empty text that is not JSON under `rdr2map_user`: the unguarded
`JSON.parse(saved)` of `loadUserData` raises, whatever the rest of the state. -/
theorem loadUserData_malformed_throws (s : State) (raw : String) (hraw : raw ≠ "")
    (h : s.localStorage.rdr2map_user = some (Text.malformed raw)) :
    (loadUserData s).thrown = some "SyntaxError" := by
  unfold loadUserData
  simp only [(loadUserData_prelude_frame s).1, h, falsy, JSON.parse]
  simp [hraw]

/-- With the key `rdr2map_user` absent, `loadUserData` raises nothing and adds no
marker and no zone. -/
theorem loadUserData_absent (s : State) (h : s.localStorage.rdr2map_user = none) :
    (loadUserData s).thrown = none ∧
    (loadUserData s).state.markerLayer = s.markerLayer ∧
    (loadUserData s).state.areaLayer = s.areaLayer := by
  obtain ⟨k1, k2, k3, _, _⟩ := loadUserData_prelude_frame s
  unfold loadUserData
  simp only [k1, h, falsy]
  exact ⟨rfl, k2, k3⟩

/-- C8 (as the code behaves): with the text `{`, which is not JSON, stored under
`rdr2map_user`, `loadUserData` does not complete: the `JSON.parse(saved)` call stands
outside any `try`, and its SyntaxError escapes from `loadUserData` and from `initMap`.
The marker and zone collections are empty at that point. -/
theorem loadUserData_corrupt_record_throws :
    (loadUserData (initialState blankDom corruptUserStorage)).thrown = some "SyntaxError" ∧
    (initMap { categories := some [{ id := "Custom", color := some "#ff0000" }],
               markers := none, areas := none } blankDom corruptUserStorage).thrown
      = some "SyntaxError" ∧
    (loadUserData (initialState blankDom corruptUserStorage)).state.markerLayer = [] ∧
    (loadUserData (initialState blankDom corruptUserStorage)).state.areaLayer = [] := by
  refine ⟨?_, ?_, ?_, ?_⟩ <;> rfl

/-! ### Visibility -/

theorem LMap.ext_fields (m n : LMap) (h1 : m.dragging = n.dragging) (h2 : m.cursor = n.cursor)
    (h3 : m.layers = n.layers) : m = n := by
  cases m; cases n; simp_all

theorem LMap.addLayer_cursor (m : LMap) (id : Nat) : (m.addLayer id).cursor = m.cursor := by
  unfold LMap.addLayer; split <;> rfl

theorem LMap.addLayers_cursor (m : LMap) (ids : List Nat) :
    (m.addLayers ids).cursor = m.cursor := by
  induction ids generalizing m with
  | nil => rfl
  | cons x xs ih =>
    show (LMap.addLayers (m.addLayer x) xs).cursor = m.cursor
    rw [ih, LMap.addLayer_cursor]

theorem LMap.removeLayers_cursor (m : LMap) (ids : List Nat) :
    (m.removeLayers ids).cursor = m.cursor := by
  induction ids generalizing m with
  | nil => rfl
  | cons x xs ih =>
    show (LMap.removeLayers (m.removeLayer x) xs).cursor = m.cursor
    rw [ih]; rfl

theorem LMap.removeLayers_eq (m : LMap) (ids : List Nat) :
    m.removeLayers ids = { m with layers := m.layers.filter (fun x => decide (x ∉ ids)) } :=
  LMap.ext_fields _ _ (LMap.removeLayers_dragging m ids) (LMap.removeLayers_cursor m ids)
    (LMap.removeLayers_layers m ids)

/-- Adding layers appends some of them to the layers shown. -/
theorem LMap.addLayers_layers (m : LMap) (ids : List Nat) :
    ∃ extra, (m.addLayers ids).layers = m.layers ++ extra ∧ (∀ x ∈ extra, x ∈ ids) ∧
      ∀ x ∈ ids, x ∈ (m.addLayers ids).layers := by
  induction ids generalizing m with
  | nil => exact ⟨[], by simp [LMap.addLayers], by simp, by simp⟩
  | cons y ys ih =>
    obtain ⟨extra, h1, h2, h3⟩ := ih (m.addLayer y)
    have hstep : m.addLayers (y :: ys) = (m.addLayer y).addLayers ys := rfl
    rw [hstep]
    by_cases hy : y ∈ m.layers
    · have hm : m.addLayer y = m := by simp [LMap.addLayer, hy]
      rw [hm] at h1 h3 ⊢
      refine ⟨extra, h1, fun x hx => List.mem_cons_of_mem _ (h2 x hx), ?_⟩
      intro x hx
      rcases List.mem_cons.mp hx with rfl | hx'
      · rw [h1]; exact List.mem_append_left _ hy
      · exact h3 x hx'
    · have hm : (m.addLayer y).layers = m.layers ++ [y] := by simp [LMap.addLayer, hy]
      refine ⟨y :: extra, ?_, ?_, ?_⟩
      · rw [h1, hm]; simp
      · intro x hx
        rcases List.mem_cons.mp hx with rfl | hx'
        · exact List.mem_cons_self _ _
        · exact List.mem_cons_of_mem _ (h2 x hx')
      · intro x hx
        rcases List.mem_cons.mp hx with rfl | hx'
        · rw [h1, hm]; simp
        · exact h3 x hx'

theorem LMap.addLayers_of_shown (m : LMap) (ids : List Nat) (h : ∀ x ∈ ids, x ∈ m.layers) :
    m.addLayers ids = m := by
  induction ids with
  | nil => rfl
  | cons y ys ih =>
    have hy : y ∈ m.layers := h y (List.mem_cons_self _ _)
    have hm : m.addLayer y = m := by simp [LMap.addLayer, hy]
    show (m.addLayer y).addLayers ys = m
    rw [hm]
    exact ih (fun x hx => h x (List.mem_cons_of_mem _ hx))

/-- The ids of the layers of category `cat` among `(id, cat)` pairs. -/
theorem foldl_toggleLayer {α : Type} (cat : String) (visible : Bool) (idOf : α → Nat)
    (catOf : α → String) (layers : List α) (m : LMap) :
    layers.foldl (fun m layer => toggleLayer cat visible m (idOf layer) (catOf layer)) m
      = if visible then m.addLayers ((layers.filter (fun l => decide (catOf l = cat))).map idOf)
        else m.removeLayers ((layers.filter (fun l => decide (catOf l = cat))).map idOf) := by
  induction layers generalizing m with
  | nil => cases visible <;> rfl
  | cons l ls ih =>
    rw [List.foldl_cons, ih]
    by_cases hc : catOf l = cat
    · cases visible <;> simp [toggleLayer, hc, LMap.addLayers, LMap.removeLayers]
    · cases visible <;> simp [toggleLayer, hc]

theorem setProp_setProp {β : Type} (obj : List (String × β)) (k : String) (v w : β) :
    setProp (setProp obj k v) k w = setProp obj k w := by
  induction obj with
  | nil => simp [setProp]
  | cons kv rest ih =>
    obtain ⟨k', v'⟩ := kv
    by_cases hk : k' = k
    · simp [setProp, hk]
    · simp [setProp, hk, ih]

/-- The map after `toggleCategory`, in closed form. -/
theorem toggleCategory_map (cat : String) (visible : Bool) (s : State) :
    (toggleCategory cat visible s).map
      = if visible then
          (s.map.addLayers ((s.markerLayer.filter (fun l => decide (l.data.cat = cat))).map
            (fun l => l._leaflet_id))).addLayers
            ((s.areaLayer.filter (fun l => decide (l.data.cat = cat))).map (fun l => l._leaflet_id))
        else
          (s.map.removeLayers ((s.markerLayer.filter (fun l => decide (l.data.cat = cat))).map
            (fun l => l._leaflet_id))).removeLayers
            ((s.areaLayer.filter (fun l => decide (l.data.cat = cat))).map (fun l => l._leaflet_id)) := by
  show List.foldl _ (List.foldl _ s.map s.markerLayer) s.areaLayer = _
  rw [foldl_toggleLayer cat visible (fun l : Marker => l._leaflet_id) (fun l => l.data.cat),
    foldl_toggleLayer cat visible (fun l : Polygon => l._leaflet_id) (fun l => l.data.cat)]
  cases visible <;> rfl

theorem toggleCategory_eq (cat : String) (visible : Bool) (s : State) :
    toggleCategory cat visible s
      = { s with
          CATEGORY_VISIBILITY := setProp s.CATEGORY_VISIBILITY cat visible
          localStorage := { s.localStorage with
            rdr2map_visibility := some (Text.json (setProp s.CATEGORY_VISIBILITY cat visible)) }
          map := (toggleCategory cat visible s).map } := rfl

theorem toggleCategory_twice_map (cat : String) (visible : Bool) (s : State) :
    (toggleCategory cat visible (toggleCategory cat visible s)).map
      = (toggleCategory cat visible s).map := by
  rw [toggleCategory_map cat visible (toggleCategory cat visible s)]
  have hM : (toggleCategory cat visible s).markerLayer = s.markerLayer := rfl
  have hA : (toggleCategory cat visible s).areaLayer = s.areaLayer := rfl
  rw [hM, hA, toggleCategory_map cat visible s]
  generalize (s.markerLayer.filter (fun l => decide (l.data.cat = cat))).map
    (fun l => l._leaflet_id) = idsM
  generalize (s.areaLayer.filter (fun l => decide (l.data.cat = cat))).map
    (fun l => l._leaflet_id) = idsA
  cases visible
  · simp only [Bool.false_eq_true, if_false, LMap.removeLayers_eq, List.filter_filter]
    congr 1
    apply List.filter_congr
    intro x _
    by_cases h1 : x ∈ idsM <;> by_cases h2 : x ∈ idsA <;> simp [h1, h2]
  · simp only [if_true]
    obtain ⟨e1, h1, _, h1'⟩ := LMap.addLayers_layers s.map idsM
    obtain ⟨e2, h2, _, h2'⟩ := LMap.addLayers_layers (s.map.addLayers idsM) idsA
    have hMshown : ∀ x ∈ idsM, x ∈ ((s.map.addLayers idsM).addLayers idsA).layers := by
      intro x hx
      rw [h2]
      exact List.mem_append_left _ (h1' x hx)
    rw [LMap.addLayers_of_shown _ idsM hMshown, LMap.addLayers_of_shown _ idsA h2']

theorem toggleCategory_show_hide_map (cat : String) (s : State) :
    (toggleCategory cat false (toggleCategory cat true s)).map
      = (toggleCategory cat false s).map := by
  rw [toggleCategory_map cat false (toggleCategory cat true s)]
  have hM : (toggleCategory cat true s).markerLayer = s.markerLayer := rfl
  have hA : (toggleCategory cat true s).areaLayer = s.areaLayer := rfl
  rw [hM, hA, toggleCategory_map cat true s, toggleCategory_map cat false s]
  generalize (s.markerLayer.filter (fun l => decide (l.data.cat = cat))).map
    (fun l => l._leaflet_id) = idsM
  generalize (s.areaLayer.filter (fun l => decide (l.data.cat = cat))).map
    (fun l => l._leaflet_id) = idsA
  simp only [Bool.false_eq_true, if_false, if_true]
  obtain ⟨e1, h1, h1s, _⟩ := LMap.addLayers_layers s.map idsM
  obtain ⟨e2, h2, h2s, _⟩ := LMap.addLayers_layers (s.map.addLayers idsM) idsA
  apply LMap.ext_fields
  · simp [LMap.removeLayers_dragging, LMap.addLayers_dragging]
  · simp [LMap.removeLayers_cursor, LMap.addLayers_cursor]
  · simp only [LMap.removeLayers_layers, h2, h1, List.filter_append, List.filter_filter]
    have he1 : e1.filter (fun x => decide (x ∉ idsA) && decide (x ∉ idsM)) = [] := by
      rw [List.filter_eq_nil_iff]
      intro x hx
      simp [h1s x hx]
    have he2 : e2.filter (fun x => decide (x ∉ idsA) && decide (x ∉ idsM)) = [] := by
      rw [List.filter_eq_nil_iff]
      intro x hx
      simp [h2s x hx]
    rw [he1, he2]
    simp

/-- C9: for every category `c`, flag `v` and state, `toggleCategory(c, v)` called twice
gives the same state as called once, and `toggleCategory(c, true)` followed by
`toggleCategory(c, false)` gives the same state as `toggleCategory(c, false)` alone:
no marker and no zone of category `c` is shown on the map, and every layer that is
not one of them is shown exactly when it was shown before. -/
theorem toggleCategory_idempotent (c : String) (v : Bool) (s : State) :
    toggleCategory c v (toggleCategory c v s) = toggleCategory c v s ∧
    toggleCategory c false (toggleCategory c true s) = toggleCategory c false s ∧
    (∀ m ∈ s.markerLayer, m.data.cat = c →
      m._leaflet_id ∉ (toggleCategory c false s).map.layers) ∧
    (∀ a ∈ s.areaLayer, a.data.cat = c →
      a._leaflet_id ∉ (toggleCategory c false s).map.layers) ∧
    (∀ id : Nat, (∀ m ∈ s.markerLayer, m.data.cat = c → m._leaflet_id ≠ id) →
      (∀ a ∈ s.areaLayer, a.data.cat = c → a._leaflet_id ≠ id) →
      (id ∈ (toggleCategory c false s).map.layers ↔ id ∈ s.map.layers)) := by
  have hlayers : (toggleCategory c false s).map.layers
      = (s.map.layers.filter (fun x => decide (x ∉
          (s.markerLayer.filter (fun l => decide (l.data.cat = c))).map
            (fun l => l._leaflet_id)))).filter
          (fun x => decide (x ∉ (s.areaLayer.filter (fun l => decide (l.data.cat = c))).map
            (fun l => l._leaflet_id))) := by
    rw [toggleCategory_map]
    simp only [Bool.false_eq_true, if_false, LMap.removeLayers_layers]
  refine ⟨?_, ?_, ?_, ?_, ?_⟩
  · rw [toggleCategory_eq c v (toggleCategory c v s), toggleCategory_twice_map]
    rw [toggleCategory_eq c v s]
    simp [setProp_setProp]
  · rw [toggleCategory_eq c false (toggleCategory c true s), toggleCategory_show_hide_map]
    rw [toggleCategory_eq c false s, toggleCategory_eq c true s]
    simp [setProp_setProp]
  · intro m hm hc
    rw [hlayers]
    simp only [List.mem_filter, not_and]
    intro hin _
    have : m._leaflet_id ∈ (s.markerLayer.filter (fun l => decide (l.data.cat = c))).map
        (fun l => l._leaflet_id) :=
      List.mem_map_of_mem _ (List.mem_filter.mpr ⟨hm, by simp [hc]⟩)
    simp [this] at hin
  · intro a ha hc
    rw [hlayers]
    simp only [List.mem_filter, not_and]
    intro _
    have : a._leaflet_id ∈ (s.areaLayer.filter (fun l => decide (l.data.cat = c))).map
        (fun l => l._leaflet_id) :=
      List.mem_map_of_mem _ (List.mem_filter.mpr ⟨ha, by simp [hc]⟩)
    simp [this]
  · intro id hM hA
    rw [hlayers]
    simp only [List.mem_filter, List.mem_map, decide_eq_true_eq]
    constructor
    · intro h; exact h.1.1
    · intro h
      refine ⟨⟨h, ?_⟩, ?_⟩
      · rintro ⟨m, hm, rfl⟩
        exact hM m hm.1 (by simpa using hm.2) rfl
      · rintro ⟨a, ha, rfl⟩
        exact hA a ha.1 (by simpa using ha.2) rfl

/-! ### The list panel -/

theorem includesChars_iff (str q : List Char) : includesChars str q = true ↔ q <:+: str := by
  induction str with
  | nil => simp [includesChars, List.infix_nil]
  | cons c cs ih =>
    simp only [includesChars, Bool.or_eq_true, ih, List.infix_cons_iff, List.isPrefixOf_iff_prefix]

/-- The test `str.includes(q)` holds exactly when `q` is a substring of `str`. -/
theorem includes_iff (str q : String) : includes str q = true ↔ q.data <:+: str.data :=
  includesChars_iff str.data q.data

/-- Membership in the list of `filterList`, for any query and any lower-casing. -/
theorem mem_filterList_listed (L : LowerCasing) (q : String) (s : State) (layer : UserLayer) :
    layer ∈ filterList.listed L q s ↔
      layer ∈ allLayers s ∧ layer.cat = s.dom.listTitle ∧
        (q = "" ∨ q.data <:+: (L.toLowerCase layer.name).data) := by
  simp only [filterList.listed, List.mem_filter, filterList.shows, Bool.and_eq_true,
    Bool.or_eq_true, decide_eq_true_eq, includes_iff]

/-- C10 (as the code behaves): for every lower-casing `L` that the built-in
`toLowerCase` may be, `filterList(q)` lists an annotation exactly when its category is
the one shown in the list title and `q` is empty or is, as it stands, a substring of
the lower-cased name; `q` itself is not lower-cased by `filterList`.  The search box
listener passes `q = trim(lowercase(text))`.  With `q` empty every annotation of the
category is listed, and the panel body is the entries of the listed annotations in
order, or the `No items yet` entry when there is none. -/
theorem filterList_lists (L : LowerCasing) (q : String) (s : State) (layer : UserLayer) :
    (layer ∈ filterList.listed L q s ↔
      layer ∈ allLayers s ∧ layer.cat = s.dom.listTitle ∧
        (q = "" ∨ q.data <:+: (L.toLowerCase layer.name).data)) ∧
    (layer ∈ filterList.listed L "" s ↔ layer ∈ allLayers s ∧ layer.cat = s.dom.listTitle) ∧
    (filterList L q s).dom.listBody
      = (if (filterList.listed L q s).isEmpty then [ListEntry.noItems]
         else (filterList.listed L q s).map filterList.entry) ∧
    listSearch.onInput L s = filterList L (trim (L.toLowerCase s.dom.listSearch)) s ∧
    (layer ∈ filterList.listed L (trim (L.toLowerCase s.dom.listSearch)) s ↔
      layer ∈ allLayers s ∧ layer.cat = s.dom.listTitle ∧
        (trim (L.toLowerCase s.dom.listSearch) = "" ∨
          (trim (L.toLowerCase s.dom.listSearch)).data <:+: (L.toLowerCase layer.name).data)) := by
  refine ⟨mem_filterList_listed L q s layer, ?_, rfl, rfl, mem_filterList_listed L _ s layer⟩
  rw [mem_filterList_listed L "" s layer]
  simp

/-- The claim of C10 fails on `filterList(q)` for a query with a capital letter: with
the list panel on `Custom` and a marker named `Camp` of that category, `lowercase(name)`
contains `lowercase(q)` for `q = Camp`, yet `filterList` lists nothing.  It also fails
through the search box for padded text: with ` a` typed, the listener lists `Camp`,
whose lower-cased name does not contain the lower-cased text.  All the strings are
ASCII, on which the lower-casing used here is the built-in. -/
theorem filterList_not_case_insensitive :
    UserLayer.marker campMarker ∈ allLayers campListOpen ∧
    (UserLayer.marker campMarker).cat = campListOpen.dom.listTitle ∧
    includes (asciiLowerCasing.toLowerCase (UserLayer.marker campMarker).name)
      (asciiLowerCasing.toLowerCase "Camp") = true ∧
    UserLayer.marker campMarker ∉ filterList.listed asciiLowerCasing "Camp" campListOpen ∧
    (filterList asciiLowerCasing "Camp" campListOpen).dom.listBody = [ListEntry.noItems] ∧
    campListOpen.dom.listSearch = " a" ∧
    includes (asciiLowerCasing.toLowerCase (UserLayer.marker campMarker).name)
      (asciiLowerCasing.toLowerCase campListOpen.dom.listSearch) = false ∧
    (listSearch.onInput asciiLowerCasing campListOpen).dom.listBody
      = [ListEntry.item "Camp" []] := by
  refine ⟨by decide, by decide, by decide, by decide, by decide, rfl, by decide, by decide⟩

/-- The two failures of `filterList_not_case_insensitive` do not depend on how the
built-in lower-cases characters outside ASCII: they hold for every lower-casing. -/
theorem filterList_not_case_insensitive_any (L : LowerCasing) :
    includes (L.toLowerCase (UserLayer.marker campMarker).name) (L.toLowerCase "Camp") = true ∧
    UserLayer.marker campMarker ∉ filterList.listed L "Camp" campListOpen ∧
    includes (L.toLowerCase (UserLayer.marker campMarker).name)
      (L.toLowerCase campListOpen.dom.listSearch) = false ∧
    UserLayer.marker campMarker
      ∈ filterList.listed L (trim (L.toLowerCase campListOpen.dom.listSearch)) campListOpen := by
  have h1 : L.toLowerCase "Camp" = "camp" := by
    rw [L.ascii "Camp" (by decide)]; decide
  have h2 : L.toLowerCase " a" = " a" := by
    rw [L.ascii " a" (by decide)]; decide
  have hn : (UserLayer.marker campMarker).name = "Camp" := rfl
  have hs : campListOpen.dom.listSearch = " a" := rfl
  have hmem : UserLayer.marker campMarker ∈ allLayers campListOpen := by decide
  have hcat : (UserLayer.marker campMarker).cat = campListOpen.dom.listTitle := rfl
  rw [hn, hs, h1, h2]
  refine ⟨by decide, ?_, by decide, ?_⟩
  · intro hin
    have := ((mem_filterList_listed L "Camp" campListOpen (UserLayer.marker campMarker)).mp hin).2.2
    rw [hn, h1] at this
    rcases this with h | h
    · exact absurd h (by decide)
    · exact absurd ((includes_iff "camp" "Camp").mpr h) (by decide)
  · apply (mem_filterList_listed L (trim " a") campListOpen (UserLayer.marker campMarker)).mpr
    refine ⟨hmem, hcat, Or.inr ?_⟩
    rw [hn, h1]
    exact (includes_iff "camp" (trim " a")).mp (by decide)

/-- A name with a capital letter outside ASCII: with a lower-casing that maps `É` to
`é`, as the built-in does, `filterList` lists the marker `École` for the query `é`. -/
theorem filterList_accented_name :
    (filterList accentLowerCasing "é" ecoleListOpen).dom.listBody
      = [ListEntry.item "École" []] := by
  decide

/-! ### Export, import and reload -/

theorem getProp_setProp {β : Type} (obj : List (String × β)) (k k' : String) (v : β) :
    getProp (setProp obj k v) k' = if k = k' then some v else getProp obj k' := by
  induction obj with
  | nil => simp [setProp, getProp]
  | cons kv rest ih =>
    obtain ⟨k0, v0⟩ := kv
    by_cases h0 : k0 = k
    · subst h0
      by_cases h1 : k0 = k' <;> simp [setProp, getProp, h1]
    · by_cases h1 : k0 = k'
      · subst h1
        simp [setProp, getProp, h0, Ne.symm h0]
      · simp [setProp, getProp, h0, h1, ih]

theorem getProp_foldl_setProp {β : Type} (entries : List (String × β)) (obj : List (String × β))
    (k : String) (v : β) (hall : ∀ e ∈ entries, e.1 = k → e.2 = v)
    (hsome : getProp obj k = some v ∨ ∃ e ∈ entries, e.1 = k) :
    getProp (entries.foldl (fun o kv => setProp o kv.1 kv.2) obj) k = some v := by
  induction entries generalizing obj with
  | nil =>
    rcases hsome with h | ⟨e, he, _⟩
    · exact h
    · cases he
  | cons e rest ih =>
    rw [List.foldl_cons]
    apply ih
    · intro e' he'; exact hall e' (List.mem_cons_of_mem _ he')
    · by_cases hk : e.1 = k
      · left
        rw [getProp_setProp, if_pos hk, hall e (List.mem_cons_self _ _) hk]
      · rcases hsome with h | ⟨e', he', hk'⟩
        · left; rw [getProp_setProp, if_neg hk]; exact h
        · rcases List.mem_cons.mp he' with rfl | hmem
          · exact absurd hk' hk
          · right; exact ⟨e', hmem, hk'⟩

/-- Reading back the category list that `saveUserData` wrote gives the same entries. -/
theorem categoryEntries_setCategories (s0 t : State) :
    categoryEntries (setCategories (categoryEntries s0) t) = categoryEntries s0 := by
  simp only [categoryEntries, setCategories, List.map_map]
  apply List.map_congr_left
  intro id hid
  simp only [Function.comp]
  congr 1
  have h := getProp_foldl_setProp
    (List.map ((fun c : CatEntry => (c.id, c.color)) ∘
      fun id => ({ id := id, color := (getProp s0.COLOR_MAP id).join } : CatEntry)) s0.CATEGORY_LIST)
    [] id (getProp s0.COLOR_MAP id).join
    (by
      intro e he hk
      obtain ⟨id', _, rfl⟩ := List.mem_map.mp he
      simp only [Function.comp] at hk ⊢
      rw [hk])
    (Or.inr ⟨(id, (getProp s0.COLOR_MAP id).join),
      List.mem_map.mpr ⟨id, hid, rfl⟩, rfl⟩)
  simp only [fromEntries]
  rw [h]
  rfl

theorem foldl_addLoadedMarker (ms : List MarkerData) (s : State) :
    (ms.foldl addLoadedMarker s).markerLayer.map (fun m => m.data)
      = s.markerLayer.map (fun m => m.data) ++ ms ∧
    (ms.foldl addLoadedMarker s).areaLayer = s.areaLayer ∧
    (ms.foldl addLoadedMarker s).CATEGORY_LIST = s.CATEGORY_LIST ∧
    (ms.foldl addLoadedMarker s).COLOR_MAP = s.COLOR_MAP ∧
    (ms.foldl addLoadedMarker s).CATEGORY_VISIBILITY = s.CATEGORY_VISIBILITY := by
  induction ms generalizing s with
  | nil => simp
  | cons m rest ih =>
    obtain ⟨h1, h2, h3, h4, h5⟩ := ih (addLoadedMarker s m)
    rw [List.foldl_cons]
    refine ⟨?_, ?_, ?_, ?_, ?_⟩
    · rw [h1]; simp [addLoadedMarker]
    · rw [h2]; rfl
    · rw [h3]; rfl
    · rw [h4]; rfl
    · rw [h5]; rfl

theorem foldl_addLoadedArea (zs : List ZoneData) (s : State) :
    (zs.foldl addLoadedArea s).areaLayer.map (fun a => a.data)
      = s.areaLayer.map (fun a => a.data) ++ zs ∧
    (zs.foldl addLoadedArea s).markerLayer = s.markerLayer ∧
    (zs.foldl addLoadedArea s).CATEGORY_LIST = s.CATEGORY_LIST ∧
    (zs.foldl addLoadedArea s).COLOR_MAP = s.COLOR_MAP ∧
    (zs.foldl addLoadedArea s).CATEGORY_VISIBILITY = s.CATEGORY_VISIBILITY := by
  induction zs generalizing s with
  | nil => simp
  | cons z rest ih =>
    obtain ⟨h1, h2, h3, h4, h5⟩ := ih (addLoadedArea s z)
    rw [List.foldl_cons]
    refine ⟨?_, ?_, ?_, ?_, ?_⟩
    · rw [h1]; simp [addLoadedArea]
    · rw [h2]; rfl
    · rw [h3]; rfl
    · rw [h4]; rfl
    · rw [h5]; rfl

/-- Applying the stored visibility after a load changes neither the collections nor
the categories. -/
theorem foldl_applyVisibility (entries : List (String × Bool)) (s : State) :
    (entries.foldl (fun st entry => if !entry.2 then toggleCategory entry.1 false st else st)
        s).markerLayer = s.markerLayer ∧
    (entries.foldl (fun st entry => if !entry.2 then toggleCategory entry.1 false st else st)
        s).areaLayer = s.areaLayer ∧
    (entries.foldl (fun st entry => if !entry.2 then toggleCategory entry.1 false st else st)
        s).CATEGORY_LIST = s.CATEGORY_LIST ∧
    (entries.foldl (fun st entry => if !entry.2 then toggleCategory entry.1 false st else st)
        s).COLOR_MAP = s.COLOR_MAP := by
  induction entries generalizing s with
  | nil => simp
  | cons e rest ih =>
    rw [List.foldl_cons]
    obtain ⟨h1, h2, h3, h4⟩ :=
      ih (if !e.2 then toggleCategory e.1 false s else s)
    rw [h1, h2, h3, h4]
    cases e.2 <;> exact ⟨rfl, rfl, rfl, rfl⟩

/-- Loading a user-data record that has its three arrays: nothing is raised, the
marker and zone data are appended in order and the categories are replaced. -/
theorem loadUserData_of_record (t : State) (ms : List MarkerData) (zs : List ZoneData)
    (cs : List CatEntry)
    (h : t.localStorage.rdr2map_user
      = some (Text.json { markers := some ms, areas := some zs, categories := some cs })) :
    (loadUserData t).thrown = none ∧
    (loadUserData t).state.markerLayer.map (fun m => m.data)
      = t.markerLayer.map (fun m => m.data) ++ ms ∧
    (loadUserData t).state.areaLayer.map (fun a => a.data)
      = t.areaLayer.map (fun a => a.data) ++ zs ∧
    (loadUserData t).state.CATEGORY_LIST = cs.map (fun c => c.id) ∧
    (loadUserData t).state.COLOR_MAP = fromEntries (cs.map (fun c => (c.id, c.color))) := by
  obtain ⟨k1, k2, k3, _, _⟩ := loadUserData_prelude_frame t
  unfold loadUserData
  simp only [k1, h, falsy, JSON.parse, Option.getD_some]
  generalize hs1 : rebuildLegendAndSelect (loadVisibility (loadRuntimeCategories t)) = s1 at *
  generalize hs2 : rebuildLegendAndSelect (setCategories cs s1) = s2
  have e1 : s2.markerLayer = t.markerLayer := by rw [← hs2, ← k2]; rfl
  have e2 : s2.areaLayer = t.areaLayer := by rw [← hs2, ← k3]; rfl
  have e3 : s2.CATEGORY_LIST = cs.map (fun c => c.id) := by rw [← hs2]; rfl
  have e4 : s2.COLOR_MAP = fromEntries (cs.map (fun c => (c.id, c.color))) := by rw [← hs2]; rfl
  obtain ⟨m1, m2, m3, m4, _⟩ := foldl_addLoadedMarker ms s2
  obtain ⟨a1, a2, a3, a4, _⟩ := foldl_addLoadedArea zs (ms.foldl addLoadedMarker s2)
  obtain ⟨v1, v2, v3, v4⟩ := foldl_applyVisibility
    (zs.foldl addLoadedArea (ms.foldl addLoadedMarker s2)).CATEGORY_VISIBILITY
    (zs.foldl addLoadedArea (ms.foldl addLoadedMarker s2))
  refine ⟨by simp, ?_, ?_, ?_, ?_⟩
  · simp only [Bool.false_eq_true, if_false]
    rw [v1, a2, m1, e1]
  · simp only [Bool.false_eq_true, if_false]
    rw [v2, a1, m2, e2]
  · simp only [Bool.false_eq_true, if_false]
    rw [v3, a3, m3, e3]
  · simp only [Bool.false_eq_true, if_false]
    rw [v4, a4, m4, e4]

theorem loadConfigAndDefaults_frame (cfg : DefaultConfig) (s : State) :
    (loadConfigAndDefaults cfg s).localStorage = s.localStorage ∧
    (loadConfigAndDefaults cfg s).markerLayer = s.markerLayer ∧
    (loadConfigAndDefaults cfg s).areaLayer = s.areaLayer := by
  have hfold : ∀ (α : Type) (l : List α) (u : State),
      (l.foldl (fun st _ => addDefaultShape st) u).localStorage = u.localStorage ∧
      (l.foldl (fun st _ => addDefaultShape st) u).markerLayer = u.markerLayer ∧
      (l.foldl (fun st _ => addDefaultShape st) u).areaLayer = u.areaLayer := by
    intro α l
    induction l with
    | nil => intro u; exact ⟨rfl, rfl, rfl⟩
    | cons x xs ih =>
      intro u
      obtain ⟨h1, h2, h3⟩ := ih (addDefaultShape u)
      rw [List.foldl_cons, h1, h2, h3]
      exact ⟨rfl, rfl, rfl⟩
  unfold loadConfigAndDefaults
  obtain ⟨h1, h2, h3⟩ := hfold _ (cfg.areas.getD [])
    ((cfg.markers.getD []).foldl (fun st _ => addDefaultShape st)
      (rebuildLegendAndSelect (setCategories (cfg.categories.getD []) s)))
  obtain ⟨g1, g2, g3⟩ := hfold _ (cfg.markers.getD [])
    (rebuildLegendAndSelect (setCategories (cfg.categories.getD []) s))
  exact ⟨by rw [h1, g1]; rfl, by rw [h2, g2]; rfl, by rw [h3, g3]; rfl⟩

/-- The text offered by `exportData` when the stored record has its three arrays. -/
theorem exportData_of_record (s : State) (ms : List MarkerData) (zs : List ZoneData)
    (cs : List CatEntry)
    (h : s.localStorage.rdr2map_user
      = some (Text.json { markers := some ms, areas := some zs, categories := some cs })) :
    exportData s = .ok (Text.json (ImportDoc.withUser (some cs) (some ms) (some zs))) := by
  simp [exportData, h, falsy, JSON.parse, JSON.stringify]

/-- C6: let the record under `rdr2map_user` of the exporting page `s` be the one
`saveUserData` writes in a state `s0` (markers, areas and categories all present).
Then `exportData` produces a payload, the export document of that record; `importData`
fed with it on any page `t`, whatever `t` has stored, writes that same record under
`rdr2map_user`, leaves the other two keys alone and asks for a reload; and the reload
(`loadConfigAndDefaults` with any default configuration, then `loadUserData`) raises
nothing and yields marker data, zone data and a category list with colours equal to
those of the record. -/
theorem export_import_roundtrip (s t s0 : State) (cfg : DefaultConfig) (doc : Dom)
    (hS : s.localStorage.rdr2map_user = some (Text.json (userDataOf s0))) :
    ∃ payload,
      exportData s = .ok payload ∧
      payload = Text.json (ImportDoc.withUser (some (categoryEntries s0))
        (some (s0.markerLayer.map (fun m => m.data)))
        (some (s0.areaLayer.map (fun a => a.data)))) ∧
      (importData (some payload) t).localStorage.rdr2map_user
        = some (Text.json (userDataOf s0)) ∧
      (importData (some payload) t).localStorage.rdr2map_categories
        = t.localStorage.rdr2map_categories ∧
      (importData (some payload) t).localStorage.rdr2map_visibility
        = t.localStorage.rdr2map_visibility ∧
      (importData (some payload) t).reloadRequested = true ∧
      (initMap cfg doc (importData (some payload) t).localStorage).thrown = none ∧
      (initMap cfg doc (importData (some payload) t).localStorage).state.markerLayer.map
          (fun m => m.data)
        = s0.markerLayer.map (fun m => m.data) ∧
      (initMap cfg doc (importData (some payload) t).localStorage).state.areaLayer.map
          (fun a => a.data)
        = s0.areaLayer.map (fun a => a.data) ∧
      (initMap cfg doc (importData (some payload) t).localStorage).state.CATEGORY_LIST
        = s0.CATEGORY_LIST ∧
      categoryEntries (initMap cfg doc (importData (some payload) t).localStorage).state
        = categoryEntries s0 ∧
      userDataOf (initMap cfg doc (importData (some payload) t).localStorage).state
        = userDataOf s0 := by
  have hexp := exportData_of_record s (s0.markerLayer.map (fun m : Marker => m.data))
    (s0.areaLayer.map (fun a : Polygon => a.data)) (categoryEntries s0) hS
  refine ⟨_, hexp, rfl, rfl, rfl, rfl, rfl, ?_⟩
  have hstore : (importData (some (Text.json (ImportDoc.withUser (some (categoryEntries s0))
      (some (s0.markerLayer.map (fun m => m.data)))
      (some (s0.areaLayer.map (fun a => a.data)))))) t).localStorage.rdr2map_user
      = some (Text.json { markers := some (s0.markerLayer.map (fun m => m.data))
                          areas := some (s0.areaLayer.map (fun a => a.data))
                          categories := some (categoryEntries s0) }) := rfl
  generalize (importData (some (Text.json (ImportDoc.withUser (some (categoryEntries s0))
      (some (s0.markerLayer.map (fun m => m.data)))
      (some (s0.areaLayer.map (fun a => a.data)))))) t).localStorage = storage at hstore ⊢
  obtain ⟨f1, f2, f3⟩ := loadConfigAndDefaults_frame cfg (initialState doc storage)
  have hrec : (loadConfigAndDefaults cfg (initialState doc storage)).localStorage.rdr2map_user
      = some (Text.json { markers := some (s0.markerLayer.map (fun m => m.data))
                          areas := some (s0.areaLayer.map (fun a => a.data))
                          categories := some (categoryEntries s0) }) := by
    rw [f1]; exact hstore
  obtain ⟨l1, l2, l3, l4, l5⟩ := loadUserData_of_record _ _ _ _ hrec
  have hM : (initMap cfg doc storage).state.markerLayer.map (fun m => m.data)
      = s0.markerLayer.map (fun m => m.data) := by
    show (loadUserData _).state.markerLayer.map _ = _
    rw [l2, f2]; rfl
  have hA : (initMap cfg doc storage).state.areaLayer.map (fun a => a.data)
      = s0.areaLayer.map (fun a => a.data) := by
    show (loadUserData _).state.areaLayer.map _ = _
    rw [l3, f3]; rfl
  have hL : (initMap cfg doc storage).state.CATEGORY_LIST = s0.CATEGORY_LIST := by
    show (loadUserData _).state.CATEGORY_LIST = _
    rw [l4]; simp [categoryEntries, Function.comp_def]
  have hC : categoryEntries (initMap cfg doc storage).state = categoryEntries s0 := by
    have h := categoryEntries_setCategories s0 s0
    simp only [categoryEntries, setCategories] at h ⊢
    show List.map _ (loadUserData _).state.CATEGORY_LIST = _
    rw [l4]
    have l5' : (loadUserData (loadConfigAndDefaults cfg (initialState doc storage))).state.COLOR_MAP
        = fromEntries (List.map (fun c => (c.id, c.color)) (categoryEntries s0)) := l5
    simp only [initMap, l5', categoryEntries]
    exact h
  exact ⟨l1, hM, hA, hL, hC, by simp only [userDataOf, hM, hA, hC]⟩

/-- The round trip of a store with one marker, one zone and the category `Custom`:
exported from the page that saved it, imported on the page with the two markers `Camp`
and `Saloon`, whose stored record is another one, and reloaded over a default
configuration with other categories. -/
theorem export_import_roundtrip_witness :
    (saveUserData campAndRanch).localStorage.rdr2map_user
      = some (Text.json (userDataOf campAndRanch)) ∧
    twoMarkers.state.localStorage.rdr2map_user
      ≠ some (Text.json (userDataOf campAndRanch)) ∧
    ∃ payload,
      exportData (saveUserData campAndRanch) = .ok payload ∧
      (importData (some payload) twoMarkers.state).localStorage.rdr2map_user
        = some (Text.json (userDataOf campAndRanch)) ∧
      userDataOf (initMap sampleConfig blankDom
          (importData (some payload) twoMarkers.state).localStorage).state
        = { markers := some [{ name := "Camp", desc := "", cat := "Custom", latlng := (10, 10) }]
            areas := some [{ name := "Ranch", desc := "", cat := "Custom",
                             type := some "polygon", latlngs := [(1, 1), (2, 5), (7, 3)] }]
            categories := some [{ id := "Custom", color := some "#ff0000" }] } := by
  refine ⟨rfl, by decide, ?_⟩
  obtain ⟨payload, h1, _, h3, _, _, _, _, _, _, _, _, h12⟩ :=
    export_import_roundtrip (saveUserData campAndRanch) twoMarkers.state campAndRanch
      sampleConfig blankDom rfl
  exact ⟨payload, h1, h3, by rw [h12]; rfl⟩

/-! ### Categories added at run time, across a reload -/

/-- C11 (as the code behaves): on the page where the marker `Camp` has been placed
(so `saveUserData` has written a user-data record with the category list `[Custom]`),
the category `Outlaw` with the colour `#000000` is accepted by `addCategoryFromForm`,
which writes it to `rdr2map_categories` only.  After a reload, `loadRuntimeCategories`
reads it back, but `loadUserData` then replaces the categories with those of the
user-data record: `Outlaw` is neither in `CATEGORY_LIST` nor in `COLOR_MAP`. -/
theorem addCategory_lost_on_reload :
    trim outlawTyped.dom.newCatName = "Outlaw" ∧
    "Outlaw" ∉ outlawTyped.CATEGORY_LIST ∧
    (addCategoryFromForm outlawTyped).CATEGORY_LIST = ["Custom", "Outlaw"] ∧
    getProp (addCategoryFromForm outlawTyped).COLOR_MAP "Outlaw" = some (some "#000000") ∧
    (addCategoryFromForm outlawTyped).localStorage.rdr2map_categories
      = some (Text.json { categories := some [{ id := "Custom", color := some "#ff0000" },
                                               { id := "Outlaw", color := some "#000000" }] }) ∧
    (loadRuntimeCategories (loadConfigAndDefaults customConfig
        (initialState blankDom (addCategoryFromForm outlawTyped).localStorage))).CATEGORY_LIST
      = ["Custom", "Outlaw"] ∧
    (initMap customConfig blankDom (addCategoryFromForm outlawTyped).localStorage).thrown
      = none ∧
    (initMap customConfig blankDom
        (addCategoryFromForm outlawTyped).localStorage).state.CATEGORY_LIST = ["Custom"] ∧
    "Outlaw" ∉ (initMap customConfig blankDom
        (addCategoryFromForm outlawTyped).localStorage).state.CATEGORY_LIST ∧
    getProp (initMap customConfig blankDom
        (addCategoryFromForm outlawTyped).localStorage).state.COLOR_MAP "Outlaw" = none := by
  refine ⟨by decide, by decide, by rfl, by rfl, by rfl, by rfl, by rfl, by rfl, by decide, by rfl⟩

/-- With no user-data record stored (key absent or empty), a category accepted by
`addCategoryFromForm` is in `CATEGORY_LIST` with its colour after a reload. -/
theorem addCategory_persists_without_user_record (s : State) (cfg : DefaultConfig) (doc : Dom)
    (h0 : trim s.dom.newCatName ≠ "") (h1 : trim s.dom.newCatName ∉ s.CATEGORY_LIST)
    (hU : falsy s.localStorage.rdr2map_user = true) :
    (initMap cfg doc (addCategoryFromForm s).localStorage).thrown = none ∧
    trim s.dom.newCatName
      ∈ (initMap cfg doc (addCategoryFromForm s).localStorage).state.CATEGORY_LIST ∧
    (getProp (initMap cfg doc (addCategoryFromForm s).localStorage).state.COLOR_MAP
        (trim s.dom.newCatName)).join = some s.dom.newCatColor := by
  -- the storage written by the add
  have hstore : (addCategoryFromForm s).localStorage
      = { s.localStorage with rdr2map_categories := some (Text.json
            { categories := some
                ((s.CATEGORY_LIST ++ [trim s.dom.newCatName]).map (fun id =>
                  ({ id := id
                     color := (getProp (setProp s.COLOR_MAP (trim s.dom.newCatName)
                        (some s.dom.newCatColor)) id).join } : CatEntry))) }) } := by
    simp [addCategoryFromForm, h0, h1, toast, saveRuntimeCategories, rebuildLegendAndSelect,
      JSON.stringify, categoryEntries]
  rw [hstore]
  generalize hcats : (s.CATEGORY_LIST ++ [trim s.dom.newCatName]).map (fun id =>
      ({ id := id
         color := (getProp (setProp s.COLOR_MAP (trim s.dom.newCatName)
            (some s.dom.newCatColor)) id).join } : CatEntry)) = cats
  obtain ⟨f1, _, _⟩ := loadConfigAndDefaults_frame cfg (initialState doc
    { s.localStorage with rdr2map_categories := some (Text.json { categories := some cats }) })
  generalize hs1 : loadConfigAndDefaults cfg (initialState doc
    { s.localStorage with rdr2map_categories := some (Text.json { categories := some cats }) })
      = s1 at f1
  have hc : s1.localStorage.rdr2map_categories = some (Text.json { categories := some cats }) := by
    rw [f1]; rfl
  have hu : falsy s1.localStorage.rdr2map_user = true := by rw [f1]; exact hU
  have hrt : loadRuntimeCategories s1 = setCategories cats s1 := by
    simp [loadRuntimeCategories, hc, falsy, JSON.parse]
  have hload : loadUserData s1
      = ⟨rebuildLegendAndSelect (setCategories cats s1), none⟩ := by
    have hu' : falsy (rebuildLegendAndSelect (loadVisibility
        (loadRuntimeCategories s1))).localStorage.rdr2map_user = true := by
      rw [(loadUserData_prelude_frame s1).1]; exact hu
    unfold loadUserData
    simp only [hu', if_true]
    rw [loadVisibility_eq, hrt]
  have hinit : initMap cfg doc
      { s.localStorage with rdr2map_categories := some (Text.json { categories := some cats }) }
      = ⟨rebuildLegendAndSelect (setCategories cats s1), none⟩ := by
    unfold initMap; rw [hs1, hload]
  rw [hinit]
  refine ⟨rfl, ?_, ?_⟩
  · show trim s.dom.newCatName ∈ cats.map (fun c => c.id)
    rw [← hcats]
    simp [Function.comp_def]
  · show (getProp (fromEntries (cats.map (fun c => (c.id, c.color))))
        (trim s.dom.newCatName)).join = some s.dom.newCatColor
    have hget := getProp_foldl_setProp (cats.map (fun c => (c.id, c.color))) []
      (trim s.dom.newCatName) (some s.dom.newCatColor)
      (by
        intro e he hk
        rw [← hcats] at he
        simp only [List.map_map, List.mem_map, Function.comp] at he
        obtain ⟨id, _, rfl⟩ := he
        simp only at hk ⊢
        rw [hk, getProp_setProp]
        simp)
      (Or.inr ⟨(trim s.dom.newCatName, some s.dom.newCatColor), by
        rw [← hcats]
        simp only [List.map_map, List.mem_map, Function.comp]
        exact ⟨trim s.dom.newCatName, by simp, by rw [getProp_setProp]; simp⟩, rfl⟩)
    simp only [fromEntries]
    rw [hget]
    rfl

/-! ### The visibility record, across a reload -/

/-- C12 (as the code behaves): on the page with the marker `Camp`, the category
`Custom` is switched off, which hides the marker and stores the visibility record with
`Custom` false.  `CATEGORY_VISIBILITY` is declared with `const`, so at the next load the
assignment of the parsed record raises a TypeError that the empty `catch` swallows:
after `loadUserData` the visibility map is empty (`Custom` is not set to false) and the
marker `Camp` of category `Custom` is shown on the map. -/
theorem visibility_not_restored_on_load :
    customHidden.localStorage.rdr2map_visibility = some (Text.json [("Custom", false)]) ∧
    getProp customHidden.CATEGORY_VISIBILITY "Custom" = some false ∧
    customHidden.markerLayer.map (fun m => (m._leaflet_id, m.data.cat)) = [(5, "Custom")] ∧
    5 ∉ customHidden.map.layers ∧
    (initMap customConfig blankDom customHidden.localStorage).thrown = none ∧
    (initMap customConfig blankDom customHidden.localStorage).state.CATEGORY_VISIBILITY = [] ∧
    getProp (initMap customConfig blankDom customHidden.localStorage).state.CATEGORY_VISIBILITY
      "Custom" = none ∧
    (initMap customConfig blankDom customHidden.localStorage).state.markerLayer.map
      (fun m => (m._leaflet_id, m.data.cat)) = [(5, "Custom")] ∧
    5 ∈ (initMap customConfig blankDom customHidden.localStorage).state.map.layers := by
  refine ⟨by rfl, by rfl, by rfl, by decide, by rfl, by rfl, by rfl, by rfl, by decide⟩

theorem loadConfigAndDefaults_visibility (cfg : DefaultConfig) (s : State) :
    (loadConfigAndDefaults cfg s).CATEGORY_VISIBILITY = s.CATEGORY_VISIBILITY := by
  have hfold : ∀ (α : Type) (l : List α) (u : State),
      (l.foldl (fun st _ => addDefaultShape st) u).CATEGORY_VISIBILITY
        = u.CATEGORY_VISIBILITY := by
    intro α l
    induction l with
    | nil => intro u; rfl
    | cons x xs ih => intro u; rw [List.foldl_cons, ih]; rfl
  unfold loadConfigAndDefaults
  rw [hfold, hfold]
  rfl

/-- When the visibility map is empty before `loadUserData`, as it is when the script
has just been evaluated, it is empty after it, whatever the stored visibility record:
the record is never assigned. -/
theorem loadUserData_visibility_empty (s : State) (h : s.CATEGORY_VISIBILITY = []) :
    (loadUserData s).state.CATEGORY_VISIBILITY = [] := by
  obtain ⟨_, _, _, k4, _⟩ := loadUserData_prelude_frame s
  rw [h] at k4
  generalize hs1 : rebuildLegendAndSelect (loadVisibility (loadRuntimeCategories s)) = s1 at k4
  unfold loadUserData
  rw [hs1]
  cases hu : s1.localStorage.rdr2map_user with
  | none => simp [hu, falsy, k4]
  | some text =>
    cases text with
    | malformed raw =>
      by_cases hr : raw = "" <;> simp [hu, falsy, JSON.parse, hr, k4]
    | json data =>
      simp only [hu, falsy, JSON.parse, Bool.false_eq_true, if_false]
      generalize hs2 : (match data.categories with
        | some cats => rebuildLegendAndSelect (setCategories cats s1)
        | none => s1) = s2
      have h2 : s2.CATEGORY_VISIBILITY = [] := by
        rw [← hs2]
        cases data.categories <;> exact k4
      obtain ⟨_, _, _, _, m5⟩ := foldl_addLoadedMarker (data.markers.getD []) s2
      obtain ⟨_, _, _, _, a5⟩ := foldl_addLoadedArea (data.areas.getD [])
        ((data.markers.getD []).foldl addLoadedMarker s2)
      have h4 : ((data.areas.getD []).foldl addLoadedArea
          ((data.markers.getD []).foldl addLoadedMarker s2)).CATEGORY_VISIBILITY = [] := by
        rw [a5, m5, h2]
      simp only [h4, List.foldl_nil]

/-- After a page load the visibility map is empty, whatever is stored. -/
theorem initMap_visibility_empty (cfg : DefaultConfig) (doc : Dom) (storage : LocalStorage) :
    (initMap cfg doc storage).state.CATEGORY_VISIBILITY = [] :=
  loadUserData_visibility_empty _ (by rw [loadConfigAndDefaults_visibility]; rfl)

/-- The shape of the state after `loadUserData` when the visibility map is empty
before it: either the state reached before the user-data record is read (key absent,
empty text, or text that is not JSON), or the markers and areas of the parsed record
added one by one, after its categories if it has any. -/
theorem loadUserData_shape (s : State) (h : s.CATEGORY_VISIBILITY = []) :
    (loadUserData s).state = rebuildLegendAndSelect (loadVisibility (loadRuntimeCategories s)) ∨
    ∃ data s2,
      (rebuildLegendAndSelect (loadVisibility (loadRuntimeCategories s))).localStorage.rdr2map_user
        = some (Text.json data) ∧
      (s2 = rebuildLegendAndSelect (loadVisibility (loadRuntimeCategories s)) ∨
        ∃ cats, s2 = rebuildLegendAndSelect (setCategories cats
          (rebuildLegendAndSelect (loadVisibility (loadRuntimeCategories s))))) ∧
      (loadUserData s).state
        = (data.areas.getD []).foldl addLoadedArea
            ((data.markers.getD []).foldl addLoadedMarker s2) := by
  obtain ⟨_, _, _, k4, _⟩ := loadUserData_prelude_frame s
  rw [h] at k4
  generalize hs1 : rebuildLegendAndSelect (loadVisibility (loadRuntimeCategories s)) = s1 at k4
  unfold loadUserData
  rw [hs1]
  cases hu : s1.localStorage.rdr2map_user with
  | none => left; simp [hu, falsy]
  | some text =>
    cases text with
    | malformed raw =>
      left
      by_cases hr : raw = "" <;> simp [hu, falsy, JSON.parse, hr]
    | json data =>
      right
      simp only [hu, falsy, JSON.parse, Bool.false_eq_true, if_false]
      generalize hs2 : (match data.categories with
        | some cats => rebuildLegendAndSelect (setCategories cats s1)
        | none => s1) = s2
      have h2 : s2.CATEGORY_VISIBILITY = [] := by
        rw [← hs2]
        cases data.categories <;> exact k4
      have h2' : s2 = s1 ∨ ∃ cats, s2 = rebuildLegendAndSelect (setCategories cats s1) := by
        rw [← hs2]
        cases data.categories with
        | none => left; rfl
        | some cats => right; exact ⟨cats, rfl⟩
      obtain ⟨_, _, _, _, m5⟩ := foldl_addLoadedMarker (data.markers.getD []) s2
      obtain ⟨_, _, _, _, a5⟩ := foldl_addLoadedArea (data.areas.getD [])
        ((data.markers.getD []).foldl addLoadedMarker s2)
      have h4 : ((data.areas.getD []).foldl addLoadedArea
          ((data.markers.getD []).foldl addLoadedMarker s2)).CATEGORY_VISIBILITY = [] := by
        rw [a5, m5, h2]
      refine ⟨data, s2, rfl, h2', ?_⟩
      simp only [h4, List.foldl_nil]

theorem LMap.mem_addLayer (m : LMap) (id x : Nat) :
    x ∈ (m.addLayer id).layers ↔ x ∈ m.layers ∨ x = id := by
  unfold LMap.addLayer
  split
  · constructor
    · intro hx; exact Or.inl hx
    · rintro (hx | rfl)
      · exact hx
      · assumption
  · simp

theorem addLoadedMarker_shown (s : State) (m : MarkerData) (h : AllShown s) :
    AllShown (addLoadedMarker s m) := by
  constructor
  · intro x hx
    simp only [addLoadedMarker, List.mem_append, List.mem_singleton] at hx
    show x._leaflet_id ∈ (s.map.addLayer s.nextId).layers
    rw [LMap.mem_addLayer]
    rcases hx with hx | rfl
    · exact Or.inl (h.1 x hx)
    · exact Or.inr rfl
  · intro a ha
    show a._leaflet_id ∈ (s.map.addLayer s.nextId).layers
    rw [LMap.mem_addLayer]
    exact Or.inl (h.2 a ha)

theorem addLoadedArea_shown (s : State) (z : ZoneData) (h : AllShown s) :
    AllShown (addLoadedArea s z) := by
  constructor
  · intro m hm
    show m._leaflet_id ∈ (s.map.addLayer s.nextId).layers
    rw [LMap.mem_addLayer]
    exact Or.inl (h.1 m hm)
  · intro x hx
    simp only [addLoadedArea, List.mem_append, List.mem_singleton] at hx
    show x._leaflet_id ∈ (s.map.addLayer s.nextId).layers
    rw [LMap.mem_addLayer]
    rcases hx with hx | rfl
    · exact Or.inl (h.2 x hx)
    · exact Or.inr rfl

theorem foldl_shown {α : Type} (f : State → α → State)
    (hf : ∀ s x, AllShown s → AllShown (f s x)) (l : List α) (s : State) (h : AllShown s) :
    AllShown (l.foldl f s) := by
  induction l generalizing s with
  | nil => exact h
  | cons x xs ih => exact ih (f s x) (hf s x h)

/-- After a page load every loaded marker and zone is on the map, whatever the stored
visibility record says. -/
theorem initMap_all_shown (cfg : DefaultConfig) (doc : Dom) (storage : LocalStorage) :
    AllShown (initMap cfg doc storage).state := by
  obtain ⟨_, f2, f3⟩ := loadConfigAndDefaults_frame cfg (initialState doc storage)
  obtain ⟨_, k2, k3, _, _⟩ :=
    loadUserData_prelude_frame (loadConfigAndDefaults cfg (initialState doc storage))
  have hvis : (loadConfigAndDefaults cfg (initialState doc storage)).CATEGORY_VISIBILITY = [] := by
    rw [loadConfigAndDefaults_visibility]; rfl
  have h1 : AllShown (rebuildLegendAndSelect (loadVisibility (loadRuntimeCategories
      (loadConfigAndDefaults cfg (initialState doc storage))))) := by
    constructor
    · intro m hm; rw [k2, f2] at hm; cases hm
    · intro a ha; rw [k3, f3] at ha; cases ha
  rcases loadUserData_shape _ hvis with h | ⟨data, s2, _, hs2, h⟩
  · show AllShown (loadUserData _).state
    rw [h]; exact h1
  · show AllShown (loadUserData _).state
    rw [h]
    have h2 : AllShown s2 := by
      rcases hs2 with rfl | ⟨cats, rfl⟩
      · exact h1
      · exact h1
    exact foldl_shown _ addLoadedArea_shown _ _ (foldl_shown _ addLoadedMarker_shown _ _ h2)

/-! ### The marker panel -/

/-- C14 (as the code behaves): on the page with the markers `Camp` (id 5) and `Saloon`
(id 6), the edit form of `Camp` is opened and cancelled with the button `cancelPlace`,
which leaves its `submit` listener registered on the shared form; the edit form of
`Saloon` is then opened, the name `Hideout` is typed and the form is submitted.  Both
`submit` listeners run: `Saloon` is renamed, and so is `Camp`.  In the same way, after
a new-marker panel that was cancelled, submitting the edit form of `Saloon` also runs
the stale listener of `openMarkerPanel`, which sets `placing` and `pendingForm`. -/
theorem editMarker_submit_runs_stale_listeners :
    twoMarkers.state.markerLayer.map (fun m => (m._leaflet_id, m.data.name))
      = [(5, "Camp"), (6, "Saloon")] ∧
    saloonEditOpen.panel.submit = [MarkerListener.editSubmit 5, MarkerListener.editSubmit 6] ∧
    saloonEditOpen.panel.mkName = "Hideout" ∧
    saloonEditOpen.state.markerLayer.map (fun m => (m._leaflet_id, m.data.name))
      = [(5, "Camp"), (6, "Saloon")] ∧
    (dispatchMarkerSubmit saloonEditOpen).state.markerLayer.map
        (fun m => (m._leaflet_id, m.data.name))
      = [(5, "Hideout"), (6, "Hideout")] ∧
    saloonEditAfterCancelledPlace.panel.submit
      = [MarkerListener.placeSubmit, MarkerListener.editSubmit 6] ∧
    saloonEditAfterCancelledPlace.state.placing = false ∧
    saloonEditAfterCancelledPlace.state.pendingForm = none ∧
    (dispatchMarkerSubmit saloonEditAfterCancelledPlace).state.placing = true ∧
    (dispatchMarkerSubmit saloonEditAfterCancelledPlace).state.pendingForm
      = some { name := "Hideout", desc := "", cat := "Custom" } ∧
    (dispatchMarkerSubmit saloonEditAfterCancelledPlace).state.markerLayer.map
        (fun m => (m._leaflet_id, m.data.name))
      = [(5, "Camp"), (6, "Hideout")] := by
  refine ⟨by rfl, by rfl, by rfl, by rfl, by rfl, by rfl, by rfl, by rfl, by rfl, by rfl, by rfl⟩

/-- When the only `submit` listener on the marker form is the one of the edit form of
the marker `b`, a submit gives `b` the form values and leaves every other marker, and
`placing` and `pendingForm`, as they were. -/
theorem dispatchMarkerSubmit_single_edit (p : Page) (b : Nat)
    (h : p.panel.submit = [MarkerListener.editSubmit b]) :
    (dispatchMarkerSubmit p).state.markerLayer
      = p.state.markerLayer.map (fun m =>
          if m._leaflet_id = b then
            { m with
              icon := colorOr p.state.COLOR_MAP p.state.dom.mkCat
              data := { m.data with
                name := strOr p.panel.mkName "Unnamed"
                desc := strOr p.panel.mkDesc ""
                cat := p.state.dom.mkCat } }
          else m) ∧
    (∀ m ∈ p.state.markerLayer, m._leaflet_id ≠ b →
      m ∈ (dispatchMarkerSubmit p).state.markerLayer) ∧
    (dispatchMarkerSubmit p).state.placing = p.state.placing ∧
    (dispatchMarkerSubmit p).state.pendingForm = p.state.pendingForm ∧
    (dispatchMarkerSubmit p).panel.submit = [] := by
  have hd : dispatchMarkerSubmit p
      = editMarker.onSubmit b { p with panel := { p.panel with submit := [] } } := by
    simp [dispatchMarkerSubmit, h, runMarkerListener]
  rw [hd]
  refine ⟨rfl, ?_, rfl, rfl, rfl⟩
  intro m hm hne
  show m ∈ p.state.markerLayer.map _
  exact List.mem_map.mpr ⟨m, hm, by simp [hne]⟩

/-! ### The vertex count of stored zones -/

theorem zoneInv_congr {s t : State} (hA : t.areaLayer = s.areaLayer)
    (hU : t.localStorage.rdr2map_user = s.localStorage.rdr2map_user) (h : ZoneInv s) :
    ZoneInv t := by
  obtain ⟨h1, h2⟩ := h
  constructor
  · intro z hz; rw [hA] at hz; exact h1 z hz
  · unfold StoredOk at h2 ⊢
    rw [hU]; exact h2

theorem zoneInv_saveUserData (s : State) (h : ZonesOk s) : ZoneInv (saveUserData s) := by
  constructor
  · exact h
  · show AreasOk (s.areaLayer.map (fun a => a.data))
    intro a ha
    obtain ⟨z, hz, rfl⟩ := List.mem_map.mp ha
    exact (h z hz).2

theorem closeZonePanel_zones (s : State) :
    (closeZonePanel s).areaLayer = s.areaLayer ∧
    (closeZonePanel s).localStorage = s.localStorage := by
  unfold closeZonePanel
  cases h : s.isDrawingZone <;> simp [h, resetZoneDrawing]

theorem addZonePoint_zones (e : LatLng) (s : State) :
    (addZonePoint e s).state.areaLayer = s.areaLayer ∧
    (addZonePoint e s).state.localStorage = s.localStorage := by
  cases hA : s.isDrawingZone
  · simp [addZonePoint, hA]
  · cases hL : s.tempLayer with
    | none => simp [addZonePoint, hA, hL]
    | some g =>
      cases hD : s.currentZoneData with
      | none =>
        by_cases hlen : 0 < s.tempPoints.length <;> simp [addZonePoint, hA, hL, hD, hlen]
      | some d =>
        by_cases hlen : 0 < s.tempPoints.length <;> simp [addZonePoint, hA, hL, hD, hlen]

theorem zoneInv_finishZoneDrawing (s : State) (h : ZoneInv s) :
    ZoneInv (finishZoneDrawing s).state := by
  by_cases hc : (!s.isDrawingZone || decide (s.tempPoints.length < 3)) = true
  · have : finishZoneDrawing s = ⟨toast "Need at least 3 points for a zone" s, none⟩ := by
      simp only [finishZoneDrawing, hc, if_true]
    rw [this]; exact zoneInv_congr rfl rfl h
  · have hc' : (!s.isDrawingZone || decide (s.tempPoints.length < 3)) = false :=
      Bool.eq_false_iff.mpr hc
    have hlen : 3 ≤ s.tempPoints.length := by
      by_contra hlt
      apply hc
      simp [Nat.lt_of_not_le hlt]
    cases hD : s.currentZoneData with
    | none =>
      have : finishZoneDrawing s = ⟨s, some "TypeError"⟩ := by
        unfold finishZoneDrawing
        simp only [hc', hD]
        rfl
      rw [this]; exact h
    | some d =>
      have hfin : finishZoneDrawing s
          = ⟨toast "Zone added" (resetZoneDrawing (saveUserData
              { s with
                areaLayer := s.areaLayer ++
                  [{ _leaflet_id := s.nextId
                     latlngs := s.tempPoints.map (fun pt => (pt.lat, pt.lng))
                     color := strOr d.color "#94a3b8"
                     data := { name := d.name, desc := d.desc, cat := d.cat,
                               type := some "polygon",
                               latlngs := s.tempPoints.map (fun pt => (pt.lat, pt.lng)) } }]
                map := s.map.addLayer s.nextId
                nextId := s.nextId + 1 })), none⟩ := by
        unfold finishZoneDrawing
        simp only [hc', hD]
        rfl
      rw [hfin]
      refine zoneInv_congr (s := saveUserData _) rfl rfl (zoneInv_saveUserData _ ?_)
      intro z hz
      rcases List.mem_append.mp hz with hz | hz
      · exact h.1 z hz
      · rw [List.mem_singleton.mp hz]
        simp only [List.length_map]
        exact ⟨hlen, hlen⟩

theorem zoneInv_drawAction (s : State) (a : DrawAction) (h : ZoneInv s) :
    ZoneInv (a.apply s) := by
  cases a with
  | startZoneDrawing data => exact zoneInv_congr rfl rfl h
  | addZonePoint e =>
    show ZoneInv (addZonePoint e s).state
    obtain ⟨k1, k2⟩ := addZonePoint_zones e s
    exact zoneInv_congr (s := s) k1 (by rw [k2]) h
  | finishZoneDrawing => exact zoneInv_finishZoneDrawing s h
  | closeZonePanel =>
    show ZoneInv (closeZonePanel s)
    obtain ⟨k1, k2⟩ := closeZonePanel_zones s
    exact zoneInv_congr (s := s) k1 (by rw [k2]) h
  | escape =>
    show ZoneInv (onEscape s)
    obtain ⟨k1, k2⟩ := closeZonePanel_zones
      (closeMarkerPanel { s with dom := { s.dom with addCatFormHidden := true } })
    have h1 : ZoneInv (closeZonePanel
        (closeMarkerPanel { s with dom := { s.dom with addCatFormHidden := true } })) :=
      zoneInv_congr (s := s) k1 (by rw [k2]; rfl) h
    exact zoneInv_congr rfl rfl h1

theorem zoneInv_onMapClick (e : LatLng) (s : State) (h : ZoneInv s) :
    ZoneInv (onMapClick e s).state := by
  unfold onMapClick
  cases hA : s.isDrawingZone
  · cases hP : s.placing
    · simpa using h
    · cases hF : s.pendingForm with
      | none => simpa using h
      | some form =>
        simp only [Bool.false_eq_true, if_false, if_true]
        exact zoneInv_congr (s := saveUserData _) rfl rfl (zoneInv_saveUserData _ h.1)
  · simp only [if_true]
    obtain ⟨k1, k2⟩ := addZonePoint_zones e s
    exact zoneInv_congr (s := s) k1 (by rw [k2]) h

theorem zoneInv_onMapDblClick (s : State) (h : ZoneInv s) :
    ZoneInv (onMapDblClick s).state := by
  unfold onMapDblClick
  cases hA : s.isDrawingZone
  · simpa using h
  · simp only [if_true]; exact zoneInv_finishZoneDrawing s h

theorem zoneInv_openZonePanel_onSubmit (s : State) (h : ZoneInv s) :
    ZoneInv (openZonePanel.onSubmit s) := by
  obtain ⟨k1, k2⟩ := closeZonePanel_zones (startZoneDrawing
    { name := strOr s.dom.zoneName "Unnamed", desc := strOr s.dom.zoneDesc "",
      cat := s.dom.zoneCat, color := colorOr s.COLOR_MAP s.dom.zoneCat } s)
  show ZoneInv (closeZonePanel (startZoneDrawing
    { name := strOr s.dom.zoneName "Unnamed", desc := strOr s.dom.zoneDesc "",
      cat := s.dom.zoneCat, color := colorOr s.COLOR_MAP s.dom.zoneCat } s))
  exact zoneInv_congr (s := s) k1 (by rw [k2]; rfl) h

theorem zoneInv_onEditZoneClick (id : Nat) (s : State) (h : ZoneInv s) :
    ZoneInv (onEditZoneClick id s) := by
  unfold onEditZoneClick
  split
  · exact h
  · exact zoneInv_congr rfl rfl h

theorem zoneInv_editZone_onSubmit (id : Nat) (s : State) (h : ZoneInv s) :
    ZoneInv (editZone.onSubmit id s) := by
  unfold editZone.onSubmit
  simp only
  refine zoneInv_congr (s := closeZonePanel (saveUserData _)) rfl rfl ?_
  obtain ⟨k1, k2⟩ := closeZonePanel_zones (saveUserData { s with
    areaLayer := s.areaLayer.map (fun a =>
      if a._leaflet_id = id then
        { a with
          color := colorOr s.COLOR_MAP s.dom.zoneCat
          data := { a.data with name := strOr s.dom.zoneName "Unnamed",
                                desc := strOr s.dom.zoneDesc "", cat := s.dom.zoneCat } }
      else a) })
  refine zoneInv_congr k1 (by rw [k2]) (zoneInv_saveUserData _ ?_)
  intro z hz
  obtain ⟨a, ha, rfl⟩ := List.mem_map.mp hz
  by_cases hid : a._leaflet_id = id
  · simp only [hid, if_true]; exact h.1 a ha
  · simp only [hid, if_false]; exact h.1 a ha

theorem zoneInv_onDeleteZoneClick (id : Nat) (s : State) (h : ZoneInv s) :
    ZoneInv (onDeleteZoneClick id s) := by
  refine zoneInv_congr (s := saveUserData _) rfl rfl (zoneInv_saveUserData _ ?_)
  intro z hz
  exact h.1 z (List.mem_filter.mp hz).1

theorem zoneInv_onDeleteMarkerClick (id : Nat) (s : State) (h : ZoneInv s) :
    ZoneInv (onDeleteMarkerClick id s) :=
  zoneInv_congr (s := saveUserData _) rfl rfl (zoneInv_saveUserData _ h.1)

theorem zoneInv_onMarkerDragEnd (id : Nat) (ll : LatLng) (s : State) (h : ZoneInv s) :
    ZoneInv (onMarkerDragEnd id ll s) :=
  zoneInv_saveUserData _ h.1

theorem zoneInv_addCategoryFromForm (s : State) (h : ZoneInv s) :
    ZoneInv (addCategoryFromForm s) := by
  unfold addCategoryFromForm
  simp only
  split
  · exact zoneInv_congr rfl rfl h
  · split
    · exact zoneInv_congr rfl rfl h
    · exact zoneInv_congr rfl rfl h

theorem zoneInv_clearUserData (confirmed : Bool) (s : State) (h : ZoneInv s) :
    ZoneInv (clearUserData confirmed s) := by
  cases confirmed
  · exact h
  · constructor
    · intro z hz; cases hz
    · trivial

theorem zoneInv_importData (file : Option (Text ImportDoc)) (s : State) (hf : ImportOk file)
    (h : ZoneInv s) : ZoneInv (importData file s) := by
  cases file with
  | none => exact h
  | some text =>
    cases text with
    | malformed raw => exact zoneInv_congr rfl rfl h
    | json doc =>
      cases doc with
      | withUser cats markers areas => exact ⟨h.1, hf⟩
      | bare r => exact ⟨h.1, hf⟩

theorem zoneInv_runMarkerListener (p : Page) (l : MarkerListener) (h : ZoneInv p.state) :
    ZoneInv (runMarkerListener p l).state := by
  cases l with
  | placeSubmit => exact zoneInv_congr rfl rfl h
  | placeCancel => exact zoneInv_congr rfl rfl h
  | editSubmit target =>
    exact zoneInv_congr (s := saveUserData _) rfl rfl (zoneInv_saveUserData _ h.1)
  | editCancel => exact zoneInv_congr rfl rfl h

theorem zoneInv_foldl_runMarkerListener (ls : List MarkerListener) (p : Page)
    (h : ZoneInv p.state) : ZoneInv (ls.foldl runMarkerListener p).state := by
  induction ls generalizing p with
  | nil => exact h
  | cons l rest ih => exact ih (runMarkerListener p l) (zoneInv_runMarkerListener p l h)

theorem foldl_addLoadedMarker_zones (ms : List MarkerData) (s : State) :
    (ms.foldl addLoadedMarker s).areaLayer = s.areaLayer ∧
    (ms.foldl addLoadedMarker s).localStorage = s.localStorage := by
  induction ms generalizing s with
  | nil => exact ⟨rfl, rfl⟩
  | cons m rest ih =>
    obtain ⟨h1, h2⟩ := ih (addLoadedMarker s m)
    rw [List.foldl_cons, h1, h2]
    exact ⟨rfl, rfl⟩

theorem foldl_addLoadedArea_zones (zs : List ZoneData) (s : State) (hs : ZonesOk s)
    (hz : AreasOk zs) :
    ZonesOk (zs.foldl addLoadedArea s) ∧
    (zs.foldl addLoadedArea s).localStorage = s.localStorage := by
  induction zs generalizing s with
  | nil => exact ⟨hs, rfl⟩
  | cons z rest ih =>
    have hstep : ZonesOk (addLoadedArea s z) := by
      intro x hx
      rcases List.mem_append.mp hx with hx | hx
      · exact hs x hx
      · rw [List.mem_singleton.mp hx]
        exact ⟨hz z (List.mem_cons_self _ _), hz z (List.mem_cons_self _ _)⟩
    obtain ⟨h1, h2⟩ := ih (addLoadedArea s z) hstep
      (fun a ha => hz a (List.mem_cons_of_mem _ ha))
    rw [List.foldl_cons]
    exact ⟨h1, by rw [h2]; rfl⟩

/-- A page load on a storage whose user-data record has no area with fewer than 3
vertices yields zones with at least 3 vertices. -/
theorem zoneInv_initMap (cfg : DefaultConfig) (doc : Dom) (storage : LocalStorage)
    (h : StoredOk storage) : ZoneInv (initMap cfg doc storage).state := by
  obtain ⟨f1, _, f3⟩ := loadConfigAndDefaults_frame cfg (initialState doc storage)
  obtain ⟨k1, _, k3, _, _⟩ :=
    loadUserData_prelude_frame (loadConfigAndDefaults cfg (initialState doc storage))
  have hvis : (loadConfigAndDefaults cfg (initialState doc storage)).CATEGORY_VISIBILITY = [] := by
    rw [loadConfigAndDefaults_visibility]; rfl
  have hls : (rebuildLegendAndSelect (loadVisibility (loadRuntimeCategories
      (loadConfigAndDefaults cfg (initialState doc storage))))).localStorage = storage := by
    rw [k1, f1]; rfl
  have hal : (rebuildLegendAndSelect (loadVisibility (loadRuntimeCategories
      (loadConfigAndDefaults cfg (initialState doc storage))))).areaLayer = [] := by
    rw [k3, f3]; rfl
  have h1 : ZoneInv (rebuildLegendAndSelect (loadVisibility (loadRuntimeCategories
      (loadConfigAndDefaults cfg (initialState doc storage))))) := by
    constructor
    · intro z hz; rw [hal] at hz; cases hz
    · rw [hls]; exact h
  show ZoneInv (loadUserData _).state
  rcases loadUserData_shape _ hvis with hsh | ⟨data, s2, hu, hs2, hsh⟩
  · rw [hsh]; exact h1
  · rw [hsh]
    have h2 : ZoneInv s2 := by
      rcases hs2 with rfl | ⟨cats, rfl⟩
      · exact h1
      · exact zoneInv_congr rfl rfl h1
    have hls2 : s2.localStorage = storage := by
      rcases hs2 with rfl | ⟨cats, rfl⟩
      · exact hls
      · exact hls
    have hareas : AreasOk (data.areas.getD []) := by
      rw [hls] at hu
      unfold StoredOk at h
      rw [hu] at h
      exact h
    obtain ⟨m1, m2⟩ := foldl_addLoadedMarker_zones (data.markers.getD []) s2
    have hz3 : ZonesOk ((data.markers.getD []).foldl addLoadedMarker s2) := by
      intro z hz; rw [m1] at hz; exact h2.1 z hz
    obtain ⟨a1, a2⟩ := foldl_addLoadedArea_zones (data.areas.getD []) _ hz3 hareas
    refine ⟨a1, ?_⟩
    rw [a2, m2, hls2]; exact h

theorem zoneInv_applyPageAction (p : Page) (a : PageAction) (hw : a.wellFormed)
    (h : ZoneInv p.state) : ZoneInv (applyPageAction p a).state := by
  cases a with
  | draw a => exact zoneInv_drawAction p.state a h
  | mapClick e => exact zoneInv_onMapClick e p.state h
  | mapDblClick => exact zoneInv_onMapDblClick p.state h
  | openZonePanel => exact zoneInv_congr rfl rfl h
  | typeZoneForm name desc cat => exact zoneInv_congr rfl rfl h
  | zoneFormSubmit => exact zoneInv_openZonePanel_onSubmit p.state h
  | editZoneClick id => exact zoneInv_onEditZoneClick id p.state h
  | editZoneSubmit id => exact zoneInv_editZone_onSubmit id p.state h
  | editZoneCancel =>
    show ZoneInv (closeZonePanel p.state)
    obtain ⟨k1, k2⟩ := closeZonePanel_zones p.state
    exact zoneInv_congr (s := p.state) k1 (by rw [k2]) h
  | deleteZoneClick id => exact zoneInv_onDeleteZoneClick id p.state h
  | deleteMarkerClick id => exact zoneInv_onDeleteMarkerClick id p.state h
  | markerDragEnd id ll => exact zoneInv_onMarkerDragEnd id ll p.state h
  | openMarkerPanel => exact zoneInv_congr rfl rfl h
  | editMarkerClick id =>
    show ZoneInv (onEditMarkerClick id p).state
    unfold onEditMarkerClick
    split
    · exact h
    · exact zoneInv_congr rfl rfl h
  | typeMarkerForm name desc cat => exact zoneInv_congr rfl rfl h
  | markerFormSubmit => exact zoneInv_foldl_runMarkerListener _ _ h
  | cancelPlaceClick => exact zoneInv_foldl_runMarkerListener _ _ h
  | closePanelBtnClick => exact zoneInv_foldl_runMarkerListener _ _ h
  | typeCategoryForm name color => exact zoneInv_congr rfl rfl h
  | saveCategoryClick => exact zoneInv_addCategoryFromForm p.state h
  | toggleCategory cat visible => exact zoneInv_congr rfl rfl h
  | clearUserData confirmed => exact zoneInv_clearUserData confirmed p.state h
  | importFile file => exact zoneInv_importData file p.state hw h
  | reload cfg doc panel => exact zoneInv_initMap cfg doc p.state.localStorage h.2

/-- C13 (as the code behaves): from a page whose zones and whose stored user-data
record have at least 3 vertices per zone, after any sequence of user actions (zone
drawing, zone and marker editing, deletion, dragging, category actions, bulk clear,
import, page load with `loadUserData`) in which no imported file carries an area with
fewer than 3 vertices, every zone of the area collection has at least 3 vertices, and
so has every area of the stored record.  The vertex count is checked by
`finishZoneDrawing` only: `importData` and `loadUserData` take the areas as they are. -/
theorem zones_have_three_vertices (p : Page) (actions : List PageAction)
    (hZ : ZonesOk p.state) (hS : StoredOk p.state.localStorage)
    (hA : ∀ a ∈ actions, a.wellFormed) :
    ZonesOk (runPage p actions).state ∧ StoredOk (runPage p actions).state.localStorage := by
  have key : ∀ (l : List PageAction) (q : Page), ZoneInv q.state →
      (∀ a ∈ l, a.wellFormed) → ZoneInv (runPage q l).state := by
    intro l
    induction l with
    | nil => intro q hq _; exact hq
    | cons a rest ih =>
      intro q hq hw
      exact ih (applyPageAction q a)
        (zoneInv_applyPageAction q a (hw a (List.mem_cons_self _ _)) hq)
        (fun b hb => hw b (List.mem_cons_of_mem _ hb))
  exact key actions p ⟨hZ, hS⟩ hA

/-- A session with drawing, editing, an import of a triangular zone, a reload, a
rejected finish and a deletion, on a page opened on empty storage. -/
theorem zones_have_three_vertices_witness :
    ZonesOk customPage.state ∧ StoredOk customPage.state.localStorage ∧
    (∀ a ∈ sampleSession, a.wellFormed) ∧
    ZonesOk (runPage customPage sampleSession).state ∧
    (runPage customPage (sampleSession.take 13)).state.areaLayer.map
        (fun a => (a.data.name, a.data.latlngs))
      = [("Valley", [(1, 1), (2, 5), (7, 3)])] :=
  ⟨by decide, by decide, by decide,
    (zones_have_three_vertices customPage sampleSession (by decide) (by decide) (by decide)).1,
    by rfl⟩

/-- The claim of C13 fails for a zone supplied by `importData`: on a page opened on
empty storage, a file in the export format whose only zone has two vertices is imported
and the page reloads; `loadUserData` adds the zone to the area collection as it is. -/
theorem imported_zone_with_two_vertices :
    ZonesOk customPage.state ∧
    (importData (some twoVertexImport) customPage.state).reloadRequested = true ∧
    (runPage customPage twoVertexSession).state.areaLayer.map
        (fun a => (a.data.name, a.latlngs, a.data.latlngs))
      = [("Line", [(1, 1), (2, 5)], [(1, 1), (2, 5)])] ∧
    ¬ ZonesOk (runPage customPage twoVertexSession).state := by
  refine ⟨by decide, by rfl, by rfl, by decide⟩

end RD2Map
